import Mathlib

/-!
# A shallow embedding of the `PageScrollService` scroll-animation controller

This file models, in Lean 4, the TypeScript class `PageScrollService`
(`src/projects/ngx-page-scroll-core/src/lib/providers/ngx-page-scroll.service.ts`)
and proves properties about its behaviour.

Modelling choices:
* JavaScript numbers are modelled by `ℚ`. `NaN`/`Infinity`/`undefined` numeric
  results are modelled by `Option ℚ` with `none` standing for a non-finite or
  missing value; comparisons against such a value are `false`, matching
  JavaScript comparison semantics for `NaN`, and `Infinity <= x` is `false`
  for every finite tick interval `x` that occurs here.
* Object identity of `PageScrollInstance` objects (needed by `indexOf` and by
  mutation visible through aliases) is modelled by a `Nat` key into a store
  `Nat → Option PageScrollInstance` held in the service state.
* DOM scroll-view elements are likewise referenced by `Nat` keys into a
  `Nat → Option ScrollView` map; a scroll view records its current scroll
  offset along the instance's axis and whether writes to it take effect.
* Timers (`setInterval` handles) are modelled by `Option Nat`; the service
  state carries a counter producing fresh handles (starting at 1, so a handle
  is never the JavaScript-falsy `0`).
* `console.log` / `console.warn` calls have no modelled effect, so the
  `_logLevel` guards around them are dropped.
* Completion callbacks (`fireEvent`) are modelled by appending the pair
  `(instance key, success flag)` to an event log in the state.
-/

namespace NgxPageScroll

/-- A scrollable container (DOM element) as seen by the service: its current
scroll offset along the relevant axis (`none` models an `undefined`
`scrollTop`/`scrollLeft`), and whether assigning a new scroll offset to it
takes effect (models elements that reject/ignore scroll writes). -/
structure ScrollView where
  scrollPos : Option ℚ
  writable : Bool

/-- The DOM fragment the service touches: scroll views by key. -/
def Dom : Type := Nat → Option ScrollView

/-- An easing function `(elapsed, start, distance, duration) → position`. -/
def EasingLogic : Type := ℚ → ℚ → ℚ → ℚ → ℚ

/-- The merged page-scroll options, with exactly the fields the service reads.
`nmspace` models the `namespace` option (a Lean keyword forces the rename);
`minScrollDistance` and `interval` model `_minScrollDistance` and `_interval`.
`scrollViews` is `none` when the merged option is `null`/`undefined`; list
entries are `none` for `null`/`undefined` array elements. -/
structure PageScrollOptions where
  nmspace : Option String
  interruptible : Bool
  isVerticalScrolling : Bool
  duration : Option ℚ
  speed : Option ℚ
  minScrollDistance : ℚ
  interval : ℚ
  easingLogic : EasingLogic
  scrollViews : Option (List (Option Nat))

/-- The caller-supplied partial options of one scroll request: each field is
`none` when the property is absent, so that the service's option merge
(`\x7b...this.config, ...instance.pageScrollOptions\x7d`) can fill it from the
config. -/
structure RequestedOptions where
  nmspace : Option String
  interruptible : Option Bool
  isVerticalScrolling : Option Bool
  duration : Option ℚ
  speed : Option ℚ
  minScrollDistance : Option ℚ
  interval : Option ℚ
  easingLogic : Option EasingLogic
  scrollViews : Option (List (Option Nat))

/-- The service configuration (the result of merging a custom config over the
library defaults in the constructor; the default-config module is outside the
sources, so the config is kept abstract with exactly the fields the service
reads). -/
structure PageScrollConfig where
  nmspace : Option String
  interruptible : Bool
  isVerticalScrolling : Bool
  duration : Option ℚ
  speed : Option ℚ
  minScrollDistance : ℚ
  interval : ℚ
  easingLogic : EasingLogic
  scrollViews : Option (List (Option Nat))
  interruptKeys : List Int

/-- The spread-merge `\x7b...config, ...requested\x7d` of line 75: every property
present in the request wins, absent ones come from the config. -/
def mergeOptions (cfg : PageScrollConfig) (req : RequestedOptions) : PageScrollOptions where
  nmspace := req.nmspace <|> cfg.nmspace
  interruptible := req.interruptible.getD cfg.interruptible
  isVerticalScrolling := req.isVerticalScrolling.getD cfg.isVerticalScrolling
  duration := req.duration <|> cfg.duration
  speed := req.speed <|> cfg.speed
  minScrollDistance := req.minScrollDistance.getD cfg.minScrollDistance
  interval := req.interval.getD cfg.interval
  easingLogic := req.easingLogic.getD cfg.easingLogic
  scrollViews := req.scrollViews <|> cfg.scrollViews

/-- One scroll request with its mutable run-state.  `requestedOptions` keeps
the caller's original partial options (the source overwrites the single
`pageScrollOptions` field in place on `start`; keeping the original is
equivalent because the config never changes after construction, so re-merging
is idempotent).  `currentOffset` models the external helper
`getCurrentOffset()` and `scrollTargetTopLeft` models
`extractScrollTargetPosition()` (`none` = the target could not be resolved,
i.e. `NaN` coordinates).  Numeric fields that can hold `NaN`/`undefined` are
`Option ℚ`. -/
structure PageScrollInstance where
  requestedOptions : RequestedOptions
  pageScrollOptions : PageScrollOptions
  currentOffset : ℚ
  scrollTargetTopLeft : Option (ℚ × ℚ)
  startScrollPosition : ℚ
  targetScrollPosition : Option ℚ
  distanceToScroll : Option ℚ
  executionDuration : Option ℚ
  startTime : ℚ
  endTime : Option ℚ
  timer : Option Nat
  interruptListenersAttached : Bool

/-- The whole mutable state the service acts on: the service's own fields
(`config`, `runningInstances` as a list of instance keys), the instance store
(object heap), the DOM, the log of fired completion events
`(instance key, success)`, and the fresh-timer counter. -/
structure ServiceState where
  config : PageScrollConfig
  runningInstances : List Nat
  store : Nat → Option PageScrollInstance
  dom : Dom
  events : List (Nat × Bool)
  nextTimer : Nat

/-- Point update of an instance store (JavaScript field mutation through an
object reference). -/
def storeSet (f : Nat → Option PageScrollInstance) (k : Nat) (v : PageScrollInstance) :
    Nat → Option PageScrollInstance :=
  fun k' => if k' = k then some v else f k'

/-- Point update of the DOM map. -/
def domSet (d : Dom) (k : Nat) (v : ScrollView) : Dom :=
  fun k' => if k' = k then some v else d k'

/-- `Math.round` on a real JavaScript number: round half away from zero is
actually round half up for `Math.round`. -/
def jsRound (x : ℚ) : ℚ := ((⌊x + 1/2⌋ : ℤ) : ℚ)

/-- JavaScript truthiness of the `namespace?: string` argument: `undefined`
and the empty string are falsy. -/
def nsFalsy (ns : Option String) : Bool := ns.isNone || ns == some ""

/-- The effect of `stopInternal` on the stored instance when it is found:
interrupt listeners detached, timer handle cleared. -/
def clearRun (inst : PageScrollInstance) : PageScrollInstance :=
  { inst with interruptListenersAttached := false, timer := none }

/-- `stopInternal(interrupted, pageScrollInstance)` (lines 47-66): splice the
instance out of `runningInstances` (a no-op when absent, like
`splice(indexOf, 1)` guarded by `indexOf >= 0`), detach interrupt listeners if
attached, and — if a timer is active — clear it and fire the completion event
with `!interrupted`, returning whether a timer was cleared.  The `none` branch
of the store lookup is unreachable (callers always pass an existing object). -/
def stopInternal (interrupted : Bool) (instId : Nat) (s : ServiceState) :
    ServiceState × Bool :=
  let s1 := { s with runningInstances := s.runningInstances.erase instId }
  match s1.store instId with
  | none => (s1, false)
  | some inst =>
    match inst.timer with
    | some _ =>
      ({ s1 with store := storeSet s1.store instId (clearRun inst),
                 events := s1.events ++ [(instId, !interrupted)] }, true)
    | none =>
      ({ s1 with store := storeSet s1.store instId (clearRun inst) }, false)

/-- Whether the running instance stored at `instId` matches the namespace
filter of `stopAll` (line 221): a falsy namespace matches everything,
otherwise the instance's merged namespace must be strictly equal. -/
def runMatches (s : ServiceState) (ns : Option String) (instId : Nat) : Bool :=
  nsFalsy ns ||
    match s.store instId with
    | some inst => inst.pageScrollOptions.nmspace == ns
    | none => false

/-- The loop body of `stopAll` (lines 219-227): a `for` loop over
`runningInstances` with cursor `i`, where a match stops the instance (which
splices it out of the array) and compensates the cursor with `i--`. -/
def stopAllFrom (ns : Option String) (i : Nat) (stopped : Bool) (s : ServiceState) :
    ServiceState × Bool :=
  if h : i < s.runningInstances.length then
    let instId := s.runningInstances.get ⟨i, h⟩
    if runMatches s ns instId then
      stopAllFrom ns i true (stopInternal true instId s).1
    else
      stopAllFrom ns (i + 1) stopped s
  else
    (s, stopped)
termination_by s.runningInstances.length - i
decreasing_by
  · have hm : s.runningInstances[i] ∈ s.runningInstances := List.getElem_mem h
    have herase : ((stopInternal true s.runningInstances[i] s).1).runningInstances
        = s.runningInstances.erase s.runningInstances[i] := by
      unfold stopInternal
      cases hst : s.store s.runningInstances[i] with
      | none => simp [hst]
      | some inst => cases ht : inst.timer <;> simp [hst, ht]
    have hlen : ((stopInternal true s.runningInstances[i] s).1).runningInstances.length
        < s.runningInstances.length := by
      rw [herase, List.length_erase_of_mem hm]
      exact Nat.pred_lt (Nat.not_eq_zero_of_lt (List.length_pos_of_mem hm))
    simp only [List.get_eq_getElem]
    omega
  · omega

/-- `stopAll(namespace?)` (lines 215-231). -/
def stopAll (ns : Option String) (s : ServiceState) : ServiceState × Bool :=
  if 0 < s.runningInstances.length then
    stopAllFrom ns 0 false s
  else
    (s, false)

/-- `stop(pageScrollInstance)` (lines 233-235). -/
def stop (instId : Nat) (s : ServiceState) : ServiceState × Bool :=
  stopInternal true instId s

/-- Modelled from the spec: `PageScrollInstance.getScrollPropertyValue` (the
instance class is outside the given sources) reads the scroll view's
`scrollTop` or `scrollLeft` along the configured axis; may be `undefined`. -/
def getScrollPropertyValue (v : ScrollView) : Option ℚ := v.scrollPos

/-- The `forEach` of lines 93-108: the start scroll position is the first
truthy (defined and non-zero) scroll property value among the (non-null)
scroll views, defaulting to `0`. -/
def findStartScrollPosition (dom : Dom) : List (Option Nat) → ℚ
  | [] => 0
  | none :: rest => findStartScrollPosition dom rest
  | some vid :: rest =>
    match dom vid with
    | none => findStartScrollPosition dom rest
    | some v =>
      match getScrollPropertyValue v with
      | some x => if x ≠ 0 then x else findStartScrollPosition dom rest
      | none => findStartScrollPosition dom rest

/-- Modelled from the spec: `PageScrollInstance.setScrollPosition` (the
instance class is outside the given sources) "applies the new position to
every configured scroll-view target" and returns whether the position could
be applied to at least one target (false = "all targets rejected/failed the
write"). -/
def applyScrollPosition (dom : Dom) (views : List (Option Nat)) (pos : ℚ) : Dom × Bool :=
  match views with
  | [] => (dom, false)
  | none :: rest => applyScrollPosition dom rest pos
  | some vid :: rest =>
    match dom vid with
    | none => applyScrollPosition dom rest pos
    | some v =>
      if v.writable then
        let r := applyScrollPosition (domSet dom vid { v with scrollPos := some pos }) rest pos
        (r.1, true)
      else
        applyScrollPosition dom rest pos

/-- Lines 136-145: the execution duration is the configured duration when one
is present; with a speed and no duration it is `|distance| / speed * 1000`.
`none` models an `undefined` or non-finite result: no duration and no speed
leaves it `undefined`, and a zero speed yields `Infinity`/`NaN` — all of
which compare `false` against the tick interval and make the end time
unreachable, exactly like `none` does in this model. -/
def computeExecutionDuration (duration speed : Option ℚ) (dist : ℚ) : Option ℚ :=
  match duration with
  | some d => some d
  | none =>
    match speed with
    | some v => if v = 0 then none else some (|dist| / v * 1000)
    | none => none

/-- Line 149: whether the execution duration is at most one tick interval
(`undefined`, `NaN` and `Infinity` durations compare `false`). -/
def executionTooShort (execDur : Option ℚ) (interval : ℚ) : Bool :=
  match execDur with
  | some dd => dd ≤ interval
  | none => false

/-- Lines 134-151: the immediate-completion condition
`allReadyAtDestination || tooShortInterval` for a computed distance `d`. -/
def shortcircuitNow (opts : PageScrollOptions) (d : ℚ) : Bool :=
  decide (|d| < opts.minScrollDistance)
    || executionTooShort (computeExecutionDuration opts.duration opts.speed d) opts.interval

/-- Lines 115-116: the target scroll position is the rounded difference of
the resolved target coordinate on the configured axis and the current scroll
offset; an unresolved target (`NaN`) propagates as `none`. -/
def computeTargetPosition (opts : PageScrollOptions) (inst : PageScrollInstance) : Option ℚ :=
  inst.scrollTargetTopLeft.map fun p =>
    jsRound ((if opts.isVerticalScrolling then p.1 else p.2) - inst.currentOffset)

/-- The remainder of `start` after the option merge and the namespace-scoped
`stopAll` (lines 80-209): the no-scroll-views early return, the start/target
position computation, the `NaN`-distance failure, the immediate-completion
short-circuit, and the scheduling of the tick timer. -/
def startAfterStop (instId : Nat) (now : ℚ) (s : ServiceState) : ServiceState :=
  match s.store instId with
  | none => s
  | some inst =>
    let opts := inst.pageScrollOptions
    match opts.scrollViews with
    | none => s
    | some views =>
      if views.length = 0 then s
      else
        let startPos := findStartScrollPosition s.dom views
        let target := computeTargetPosition opts { inst with startScrollPosition := startPos }
        let dist : Option ℚ := target.map (fun tp => tp - startPos)
        let inst2 := { inst with
          startScrollPosition := startPos
          targetScrollPosition := target
          distanceToScroll := dist }
        match dist with
        | none =>
          { s with store := storeSet s.store instId inst2,
                   events := s.events ++ [(instId, false)] }
        | some d =>
          let execDur := computeExecutionDuration opts.duration opts.speed d
          let inst3 := { inst2 with executionDuration := execDur }
          if shortcircuitNow opts d then
            let applied := applyScrollPosition s.dom views (target.getD 0)
            { s with store := storeSet s.store instId inst3,
                     dom := applied.1,
                     events := s.events ++ [(instId, true)] }
          else
            let inst4 :=
              if opts.interruptible then
                { inst3 with interruptListenersAttached := true }
              else inst3
            let inst5 := { inst4 with
              startTime := now
              endTime := execDur.map (now + ·)
              timer := some s.nextTimer }
            { s with store := storeSet s.store instId inst5,
                     nextTimer := s.nextTimer + 1,
                     runningInstances := s.runningInstances ++ [instId] }

/-- `start(pageScrollInstance)` (lines 73-210): merge the config into the
instance's options, stop every running instance of the merged namespace, then
run the rest of the start logic. -/
def start (instId : Nat) (now : ℚ) (s : ServiceState) : ServiceState :=
  match s.store instId with
  | none => s
  | some inst0 =>
    let opts := mergeOptions s.config inst0.requestedOptions
    let s1 := { s with store := storeSet s.store instId { inst0 with pageScrollOptions := opts } }
    let s2 := (stopAll opts.nmspace s1).1
    startAfterStop instId now s2

/-- Line 181: whether the tick's current time has reached the instance's end
time (an unset/`NaN` end time compares `false`). -/
def tickReachedEnd (inst : PageScrollInstance) (currentTime : ℚ) : Bool :=
  match inst.endTime with
  | some e => e ≤ currentTime
  | none => false

/-- Lines 179-192: the new scroll position of one tick — the target position
on natural completion, the rounded easing value otherwise.  The `getD 0`
defaults are unreachable for a scheduled instance, whose target, distance and
duration are all set. -/
def tickNewPosition (inst : PageScrollInstance) (currentTime : ℚ) : ℚ :=
  if tickReachedEnd inst currentTime then
    inst.targetScrollPosition.getD 0
  else
    jsRound (inst.pageScrollOptions.easingLogic (currentTime - inst.startTime)
      inst.startScrollPosition (inst.distanceToScroll.getD 0)
      (inst.executionDuration.getD 0))

/-- The `setInterval` callback of lines 174-206: compute the new position,
write it to all scroll views, and stop (with `interrupted = false`) when the
end time was reached or the write failed for every view. -/
def tick (instId : Nat) (currentTime : ℚ) (s : ServiceState) : ServiceState :=
  match s.store instId with
  | none => s
  | some inst =>
    let newPos := tickNewPosition inst currentTime
    let applied := applyScrollPosition s.dom (inst.pageScrollOptions.scrollViews.getD []) newPos
    let stopNow := tickReachedEnd inst currentTime || !applied.2
    let s1 := { s with dom := applied.1 }
    if stopNow then (stopInternal false instId s1).1 else s1

/-- A user-input event delivered to the interrupt listeners: a key release
with its key code, a mouse press together with the keys of the scroll views
that contain the event's target node (modelling the external
`Node.contains`), or any other configured interrupt event type. -/
inductive UIEvent where
  | keyup (keyCode : Int)
  | mousedown (containedIn : List Nat)
  | otherEvent

/-- Whether some scroll view of the instance contains the mouse event's
target (line 35): `null` views contain nothing; a missing scroll-view list is
unreachable while listeners are attached and contains nothing. -/
def someViewContains (views : Option (List (Option Nat))) (containedIn : List Nat) : Bool :=
  (views.getD []).any fun ov =>
    match ov with
    | some vid => containedIn.contains vid
    | none => false

/-- The `onInterrupted` reporter (lines 17-45): ignore everything for a
non-interruptible instance; for `keyup` stop only on configured interrupt
keys; for `mousedown` stop only when the target node is inside some scroll
view; any other event type stops; stopping stops the instance's whole
namespace via `stopAll`. -/
def onInterruptedReport (ev : UIEvent) (instId : Nat) (s : ServiceState) : ServiceState :=
  match s.store instId with
  | none => s
  | some inst =>
    if !inst.pageScrollOptions.interruptible then s
    else
      let shouldStop :=
        match ev with
        | .keyup keyCode => s.config.interruptKeys.contains keyCode
        | .mousedown containedIn =>
          someViewContains inst.pageScrollOptions.scrollViews containedIn
        | .otherEvent => true
      if shouldStop then (stopAll inst.pageScrollOptions.nmspace s).1 else s

/-- One step of the service's public surface, used to reason about whole
lifecycles: a timer tick for an instance at some time, a forced stop, a
`stopAll`, an interrupt-listener report, or a `start`. -/
inductive ApiStep where
  | tickStep (instId : Nat) (t : ℚ)
  | stopStep (instId : Nat)
  | stopAllStep (ns : Option String)
  | reportStep (ev : UIEvent) (instId : Nat)
  | startStep (instId : Nat) (t : ℚ)

/-- Interpret one `ApiStep` on the state. -/
def applyStep (st : ApiStep) (s : ServiceState) : ServiceState :=
  match st with
  | .tickStep instId t => tick instId t s
  | .stopStep instId => (stop instId s).1
  | .stopAllStep ns => (stopAll ns s).1
  | .reportStep ev instId => onInterruptedReport ev instId s
  | .startStep instId t => start instId t s

/-- Run a list of steps from left to right. -/
def runSteps (steps : List ApiStep) (s : ServiceState) : ServiceState :=
  match steps with
  | [] => s
  | st :: rest => runSteps rest (applyStep st s)

/-- The number of completion events fired so far for the given instance. -/
def countEvents (s : ServiceState) (instId : Nat) : Nat :=
  (s.events.filter (fun e => e.1 = instId)).length

/-- `1` when the instance currently holds an active timer, else `0`. -/
def timerBit (s : ServiceState) (instId : Nat) : Nat :=
  match s.store instId with
  | some inst => if inst.timer.isSome then 1 else 0
  | none => 0

/-- Whether the instance stored at `instId` currently has an active timer. -/
def timerOn (s : ServiceState) (instId : Nat) : Bool :=
  match s.store instId with
  | some inst => inst.timer.isSome
  | none => false

/-- The completion events fired by one pass of `stopAll` over the given
instance keys: one `(key, false)` per matching instance holding an active
timer, in list order. -/
def stopAllResultEvents (s : ServiceState) (ns : Option String) (l : List Nat) :
    List (Nat × Bool) :=
  (l.filter (fun id => runMatches s ns id && timerOn s id)).map (fun id => (id, false))

/-! Concrete sample data, used to evaluate the theorems on explicit inputs. -/

/-- A simple linear easing function. -/
def sampleEasing : EasingLogic := fun t b d dur => b + d * (t / dur)

/-- A concrete configuration. -/
def sampleConfig : PageScrollConfig where
  nmspace := some "default"
  interruptible := true
  isVerticalScrolling := true
  duration := some 100
  speed := none
  minScrollDistance := 2
  interval := 10
  easingLogic := sampleEasing
  scrollViews := none
  interruptKeys := [27, 32]

/-- A concrete scroll request targeting scroll view `1`. -/
def sampleRequest : RequestedOptions where
  nmspace := none
  interruptible := none
  isVerticalScrolling := none
  duration := none
  speed := none
  minScrollDistance := none
  interval := none
  easingLogic := none
  scrollViews := some [some 1]

/-- A freshly created, not-yet-started instance aiming at position 500. -/
def sampleInstance : PageScrollInstance where
  requestedOptions := sampleRequest
  pageScrollOptions := mergeOptions sampleConfig sampleRequest
  currentOffset := 0
  scrollTargetTopLeft := some (500, 0)
  startScrollPosition := 0
  targetScrollPosition := none
  distanceToScroll := none
  executionDuration := none
  startTime := 0
  endTime := none
  timer := none
  interruptListenersAttached := false

/-- A DOM with one writable scroll view at key `1`, scrolled to `0`. -/
def sampleDom : Dom := fun k => if k = 1 then some ⟨some 0, true⟩ else none

/-- A service state holding `sampleInstance` (not running) at key `1`. -/
def sampleState : ServiceState where
  config := sampleConfig
  runningInstances := []
  store := fun k => if k = 1 then some sampleInstance else none
  dom := sampleDom
  events := []
  nextTimer := 1

/-- `sampleInstance` in its mid-animation run-state. -/
def runningInstance : PageScrollInstance :=
  { sampleInstance with
    targetScrollPosition := some 500
    distanceToScroll := some 500
    executionDuration := some 100
    startTime := 0
    endTime := some 100
    timer := some 1
    interruptListenersAttached := true }

/-- A state in which instance `1` is running. -/
def runningState : ServiceState :=
  { sampleState with
    runningInstances := [1]
    store := fun k => if k = 1 then some runningInstance else none
    nextTimer := 2 }

/-- A second request in namespace `b`, scrolling view `2`. -/
def sampleRequestB : RequestedOptions :=
  { sampleRequest with nmspace := some "b", scrollViews := some [some 2] }

/-- A running instance for namespace `b`. -/
def runningInstanceB : PageScrollInstance :=
  { runningInstance with
    requestedOptions := sampleRequestB
    pageScrollOptions := mergeOptions sampleConfig sampleRequestB
    timer := some 2 }

/-- A state with instance `1` (namespace `default`) and instance `2`
(namespace `b`) both running. -/
def twoNamespaceState : ServiceState :=
  { sampleState with
    runningInstances := [1, 2]
    store := fun k =>
      if k = 1 then some runningInstance
      else if k = 2 then some runningInstanceB
      else none
    nextTimer := 3 }

/-- A request whose explicit namespace is the empty string, so the merged
namespace is falsy. -/
def sampleRequestNoNs : RequestedOptions :=
  { sampleRequest with nmspace := some "" }

/-- A running instance whose merged namespace is falsy. -/
def runningInstanceNoNs : PageScrollInstance :=
  { runningInstance with
    requestedOptions := sampleRequestNoNs
    pageScrollOptions := mergeOptions sampleConfig sampleRequestNoNs }

/-- Both instances running, instance `1` with a falsy namespace. -/
def noNamespaceState : ServiceState :=
  { twoNamespaceState with
    store := fun k =>
      if k = 1 then some runningInstanceNoNs
      else if k = 2 then some runningInstanceB
      else none }

/-- An instance whose target is so close that the short-circuit fires. -/
def closeInstance : PageScrollInstance :=
  { sampleInstance with scrollTargetTopLeft := some (1, 0) }

/-- A state holding `closeInstance` at key `1`. -/
def closeState : ServiceState :=
  { sampleState with store := fun k => if k = 1 then some closeInstance else none }

/-- A DOM whose only scroll view rejects writes. -/
def unwritableDom : Dom := fun k => if k = 1 then some ⟨some 0, false⟩ else none

/-- `closeInstance` over a DOM where no write can succeed. -/
def failState : ServiceState :=
  { sampleState with
    store := fun k => if k = 1 then some closeInstance else none
    dom := unwritableDom }

/-- A state where instance `5` (namespace `default`) and instance `2`
(namespace `b`) are running and the fresh instance `1` (namespace `default`)
is about to be started. -/
def restartState : ServiceState :=
  { sampleState with
    runningInstances := [5, 2]
    store := fun k =>
      if k = 5 then some runningInstance
      else if k = 2 then some runningInstanceB
      else if k = 1 then some sampleInstance
      else none
    nextTimer := 3 }

/-- A request whose scroll-view list is present but empty. -/
def emptyViewsRequest : RequestedOptions :=
  { sampleRequest with scrollViews := some [] }

/-- An instance with an empty scroll-view list. -/
def emptyViewsInstance : PageScrollInstance :=
  { sampleInstance with requestedOptions := emptyViewsRequest }

/-- A state holding `emptyViewsInstance` at key `1`. -/
def emptyViewsState : ServiceState :=
  { sampleState with store := fun k => if k = 1 then some emptyViewsInstance else none }

/-- Instance `1` running mid-animation over a DOM where every write fails:
the next tick aborts early without ever reaching the target. -/
def failRunningState : ServiceState :=
  { runningState with dom := unwritableDom }

/-- The merged namespace of the instance stored at a key (`none` for a
missing instance or an undefined namespace). -/
def namespaceOf (s : ServiceState) (instId : Nat) : Option String :=
  (s.store instId).bind fun inst => inst.pageScrollOptions.nmspace

/-- The namespaces of the running instances, in running-set order. -/
def runningNamespaces (s : ServiceState) : List (Option String) :=
  s.runningInstances.map (namespaceOf s)

/-!
## Theorems

First, the behaviour of `stopInternal` on each state component.
-/

theorem stopInternal_runningInstances (b : Bool) (instId : Nat) (s : ServiceState) :
    ((stopInternal b instId s).1).runningInstances = s.runningInstances.erase instId := by
  unfold stopInternal
  cases h : s.store instId with
  | none => simp [h]
  | some inst => cases ht : inst.timer <;> simp [h, ht]

theorem stopInternal_store (b : Bool) (instId : Nat) (s : ServiceState) (k : Nat) :
    ((stopInternal b instId s).1).store k =
      if k = instId then (s.store instId).map clearRun else s.store k := by
  unfold stopInternal
  cases h : s.store instId with
  | none =>
    by_cases hk : k = instId <;> simp [hk, h]
  | some inst =>
    cases ht : inst.timer <;>
      · by_cases hk : k = instId <;> simp [hk, h, ht, storeSet]

theorem runMatches_stopInternal (b : Bool) (instId : Nat) (s : ServiceState)
    (ns : Option String) (k : Nat) :
    runMatches ((stopInternal b instId s).1) ns k = runMatches s ns k := by
  unfold runMatches
  rw [stopInternal_store]
  by_cases hk : k = instId
  · subst hk
    cases h : s.store k <;> simp [clearRun]
  · simp [hk]

theorem timerOn_stopInternal (b : Bool) (instId : Nat) (s : ServiceState) (k : Nat) :
    timerOn ((stopInternal b instId s).1) k = if k = instId then false else timerOn s k := by
  unfold timerOn
  rw [stopInternal_store]
  by_cases hk : k = instId
  · subst hk
    cases h : s.store k <;> simp [clearRun]
  · simp [hk]

theorem stopInternal_events (b : Bool) (instId : Nat) (s : ServiceState) :
    ((stopInternal b instId s).1).events =
      s.events ++ (if timerOn s instId then [(instId, !b)] else []) := by
  unfold stopInternal timerOn
  cases h : s.store instId with
  | none => simp [h]
  | some inst => cases ht : inst.timer <;> simp [h, ht]

theorem stopInternal_snd (b : Bool) (instId : Nat) (s : ServiceState) :
    (stopInternal b instId s).2 = timerOn s instId := by
  unfold stopInternal timerOn
  cases h : s.store instId with
  | none => simp [h]
  | some inst => cases ht : inst.timer <;> simp [h, ht]

theorem stopInternal_dom (b : Bool) (instId : Nat) (s : ServiceState) :
    ((stopInternal b instId s).1).dom = s.dom := by
  unfold stopInternal
  cases h : s.store instId with
  | none => simp [h]
  | some inst => cases ht : inst.timer <;> simp [h, ht]

theorem stopInternal_config (b : Bool) (instId : Nat) (s : ServiceState) :
    ((stopInternal b instId s).1).config = s.config := by
  unfold stopInternal
  cases h : s.store instId with
  | none => simp [h]
  | some inst => cases ht : inst.timer <;> simp [h, ht]

theorem stopInternal_nextTimer (b : Bool) (instId : Nat) (s : ServiceState) :
    ((stopInternal b instId s).1).nextTimer = s.nextTimer := by
  unfold stopInternal
  cases h : s.store instId with
  | none => simp [h]
  | some inst => cases ht : inst.timer <;> simp [h, ht]

/-- Full characterization of the `stopAll` loop starting at cursor `i`, for a
duplicate-free running set: the surviving running instances are exactly the
non-matching ones (the `i--` cursor compensation skips nobody), the returned
flag records whether anything at or after the cursor matched, matched
instances get their run-state cleared, one completion event with success
`false` is fired per matched instance holding an active timer, and the DOM,
config and timer counter are untouched. -/
theorem stopAllFrom_spec (ns : Option String) (i : Nat) (st : Bool) (s : ServiceState) :
    s.runningInstances.Nodup →
    ((stopAllFrom ns i st s).1.runningInstances =
        s.runningInstances.take i ++
          (s.runningInstances.drop i).filter (fun id => !runMatches s ns id)) ∧
    ((stopAllFrom ns i st s).2
        = (st || (s.runningInstances.drop i).any (runMatches s ns))) ∧
    (∀ k, (stopAllFrom ns i st s).1.store k =
        if k ∈ (s.runningInstances.drop i).filter (runMatches s ns) then
          (s.store k).map clearRun
        else s.store k) ∧
    ((stopAllFrom ns i st s).1.events =
        s.events ++ stopAllResultEvents s ns (s.runningInstances.drop i)) ∧
    (stopAllFrom ns i st s).1.dom = s.dom ∧
    (stopAllFrom ns i st s).1.config = s.config ∧
    (stopAllFrom ns i st s).1.nextTimer = s.nextTimer := by
  induction i, st, s using stopAllFrom.induct ns with
  | case1 i st s h instId hmatch ih =>
    intro hnd
    have hid : instId = s.runningInstances[i] := rfl
    rw [hid] at hmatch ih
    have hunf : stopAllFrom ns i st s
        = stopAllFrom ns i true (stopInternal true s.runningInstances[i] s).1 := by
      rw [stopAllFrom.eq_def]
      simp only [List.get_eq_getElem, dif_pos h, if_pos hmatch]
    have hs'run : ((stopInternal true s.runningInstances[i] s).1).runningInstances
        = s.runningInstances.take i ++ s.runningInstances.drop (i + 1) := by
      rw [stopInternal_runningInstances, hnd.erase_getElem i h,
        List.eraseIdx_eq_take_drop_succ]
    have hnd' : ((stopInternal true s.runningInstances[i] s).1).runningInstances.Nodup := by
      rw [stopInternal_runningInstances]
      exact hnd.erase _
    obtain ⟨ih1, ih2, ih3, ih4, ih5, ih6, ih7⟩ := ih hnd'
    have htakelen : (s.runningInstances.take i).length = i := by
      rw [List.length_take]; omega
    have htakei : ((stopInternal true s.runningInstances[i] s).1).runningInstances.take i
        = s.runningInstances.take i := by
      rw [hs'run]; exact List.take_left' htakelen
    have hdropi : ((stopInternal true s.runningInstances[i] s).1).runningInstances.drop i
        = s.runningInstances.drop (i + 1) := by
      rw [hs'run]; exact List.drop_left' htakelen
    have hdrop : s.runningInstances.drop i
        = s.runningInstances[i] :: s.runningInstances.drop (i + 1) :=
      List.drop_eq_getElem_cons h
    have hsplit : s.runningInstances = s.runningInstances.take i
        ++ s.runningInstances[i] :: s.runningInstances.drop (i + 1) := by
      conv_lhs => rw [← List.take_append_drop i s.runningInstances]
      rw [hdrop]
    have hnotmem : s.runningInstances[i] ∉ s.runningInstances.drop (i + 1) := by
      have hnd2 := hnd
      rw [hsplit, List.nodup_append, List.nodup_cons] at hnd2
      exact hnd2.2.1.1
    have hrm : runMatches ((stopInternal true s.runningInstances[i] s).1) ns
        = runMatches s ns :=
      funext (runMatches_stopInternal true s.runningInstances[i] s ns)
    have hsse : stopAllResultEvents ((stopInternal true s.runningInstances[i] s).1) ns
          (s.runningInstances.drop (i + 1))
        = stopAllResultEvents s ns (s.runningInstances.drop (i + 1)) := by
      unfold stopAllResultEvents
      rw [hrm]
      have hfeq : List.filter (fun id => runMatches s ns id
            && timerOn ((stopInternal true s.runningInstances[i] s).1) id)
          (s.runningInstances.drop (i + 1))
          = List.filter (fun id => runMatches s ns id && timerOn s id)
            (s.runningInstances.drop (i + 1)) := by
        refine List.filter_congr ?_
        intro x hx
        have hxne : x ≠ s.runningInstances[i] := fun hxx => hnotmem (hxx ▸ hx)
        rw [timerOn_stopInternal, if_neg hxne]
      rw [hfeq]
    refine ⟨?_, ?_, ?_, ?_, ?_, ?_, ?_⟩
    · rw [hunf, ih1, htakei, hdropi, hrm, hdrop, List.filter_cons_of_neg (by simp [hmatch])]
    · rw [hunf, ih2, hdropi, hrm, hdrop, List.any_cons, hmatch]
      simp
    · intro k
      rw [hunf, ih3 k, hdropi, hrm, stopInternal_store, hdrop,
        List.filter_cons_of_pos hmatch]
      by_cases hk : k = s.runningInstances[i]
      · have hknot : ¬ k ∈ (s.runningInstances.drop (i + 1)).filter (runMatches s ns) := by
          rw [hk]
          exact fun hmem => hnotmem (List.mem_filter.mp hmem).1
        rw [if_neg hknot, if_pos hk,
          if_pos (show k ∈ s.runningInstances[i]
              :: (s.runningInstances.drop (i + 1)).filter (runMatches s ns) from
            by rw [hk]; exact List.mem_cons_self _ _), hk]
      · rw [if_neg hk]
        by_cases hmem : k ∈ (s.runningInstances.drop (i + 1)).filter (runMatches s ns)
        · rw [if_pos hmem, if_pos (List.mem_cons_of_mem _ hmem)]
        · rw [if_neg hmem, if_neg (fun hc => by
            rcases List.mem_cons.mp hc with h1 | h2
            · exact hk h1
            · exact hmem h2)]
    · rw [hunf, ih4, hdropi, stopInternal_events, hsse, hdrop]
      unfold stopAllResultEvents
      rw [List.filter_cons]
      cases hto : timerOn s s.runningInstances[i] <;> simp [hmatch, hto]
    · rw [hunf, ih5, stopInternal_dom]
    · rw [hunf, ih6, stopInternal_config]
    · rw [hunf, ih7, stopInternal_nextTimer]
  | case2 i st s h instId hnomatch ih =>
    intro hnd
    have hid : instId = s.runningInstances[i] := rfl
    rw [hid] at hnomatch
    obtain ⟨ih1, ih2, ih3, ih4, ih5, ih6, ih7⟩ := ih hnd
    have hunf : stopAllFrom ns i st s = stopAllFrom ns (i + 1) st s := by
      rw [stopAllFrom.eq_def]
      simp only [List.get_eq_getElem, dif_pos h, if_neg hnomatch]
    have hdrop : s.runningInstances.drop i
        = s.runningInstances[i] :: s.runningInstances.drop (i + 1) :=
      List.drop_eq_getElem_cons h
    have htake : s.runningInstances.take (i + 1)
        = s.runningInstances.take i ++ [s.runningInstances[i]] := by
      rw [List.take_succ, List.getElem?_eq_getElem h]
      rfl
    have hf : runMatches s ns s.runningInstances[i] = false := by
      revert hnomatch
      cases runMatches s ns s.runningInstances[i] <;> simp
    refine ⟨?_, ?_, ?_, ?_, ?_, ?_, ?_⟩
    · rw [hunf, ih1, hdrop, List.filter_cons_of_pos (by simp [hf]), htake,
        List.append_assoc, List.singleton_append]
    · rw [hunf, ih2, hdrop, List.any_cons, hf]
      simp
    · intro k
      rw [hunf, ih3 k, hdrop, List.filter_cons_of_neg hnomatch]
    · rw [hunf, ih4, hdrop]
      unfold stopAllResultEvents
      rw [List.filter_cons_of_neg (by simp [hf])]
    · rw [hunf, ih5]
    · rw [hunf, ih6]
    · rw [hunf, ih7]
  | case3 i st s h =>
    intro _
    have hge : s.runningInstances.length ≤ i := Nat.le_of_not_lt h
    have hunf : stopAllFrom ns i st s = (s, st) := by
      rw [stopAllFrom.eq_def]
      simp only [dif_neg h]
    have hdrop : s.runningInstances.drop i = [] := List.drop_eq_nil_of_le hge
    have htake : s.runningInstances.take i = s.runningInstances :=
      List.take_of_length_le hge
    refine ⟨?_, ?_, ?_, ?_, ?_, ?_, ?_⟩ <;>
      simp [hunf, hdrop, htake, stopAllResultEvents]

end NgxPageScroll

namespace NgxPageScroll

/-! `stopAll` corollaries of `stopAllFrom_spec`. -/

theorem stopAll_runningInstances (ns : Option String) (s : ServiceState)
    (hnd : s.runningInstances.Nodup) :
    (stopAll ns s).1.runningInstances
      = s.runningInstances.filter (fun id => !runMatches s ns id) := by
  unfold stopAll
  by_cases hl : 0 < s.runningInstances.length
  · rw [if_pos hl]
    have hsp := (stopAllFrom_spec ns 0 false s hnd).1
    simpa using hsp
  · rw [if_neg hl]
    have hnil : s.runningInstances = [] := by
      cases hr : s.runningInstances with
      | nil => rfl
      | cons a l => rw [hr] at hl; simp at hl
    simp [hnil]

theorem stopAll_snd (ns : Option String) (s : ServiceState)
    (hnd : s.runningInstances.Nodup) :
    (stopAll ns s).2 = s.runningInstances.any (runMatches s ns) := by
  unfold stopAll
  by_cases hl : 0 < s.runningInstances.length
  · rw [if_pos hl]
    have hsp := (stopAllFrom_spec ns 0 false s hnd).2.1
    simpa using hsp
  · rw [if_neg hl]
    have hnil : s.runningInstances = [] := by
      cases hr : s.runningInstances with
      | nil => rfl
      | cons a l => rw [hr] at hl; simp at hl
    simp [hnil]

theorem stopAll_store (ns : Option String) (s : ServiceState)
    (hnd : s.runningInstances.Nodup) (k : Nat) :
    (stopAll ns s).1.store k
      = if k ∈ s.runningInstances.filter (runMatches s ns) then
          (s.store k).map clearRun
        else s.store k := by
  unfold stopAll
  by_cases hl : 0 < s.runningInstances.length
  · rw [if_pos hl]
    have hsp := (stopAllFrom_spec ns 0 false s hnd).2.2.1 k
    simpa using hsp
  · rw [if_neg hl]
    have hnil : s.runningInstances = [] := by
      cases hr : s.runningInstances with
      | nil => rfl
      | cons a l => rw [hr] at hl; simp at hl
    simp [hnil]

theorem stopAll_events (ns : Option String) (s : ServiceState)
    (hnd : s.runningInstances.Nodup) :
    (stopAll ns s).1.events = s.events ++ stopAllResultEvents s ns s.runningInstances := by
  unfold stopAll
  by_cases hl : 0 < s.runningInstances.length
  · rw [if_pos hl]
    have hsp := (stopAllFrom_spec ns 0 false s hnd).2.2.2.1
    simpa using hsp
  · rw [if_neg hl]
    have hnil : s.runningInstances = [] := by
      cases hr : s.runningInstances with
      | nil => rfl
      | cons a l => rw [hr] at hl; simp at hl
    simp [hnil, stopAllResultEvents]

theorem stopAll_dom (ns : Option String) (s : ServiceState)
    (hnd : s.runningInstances.Nodup) :
    (stopAll ns s).1.dom = s.dom := by
  unfold stopAll
  by_cases hl : 0 < s.runningInstances.length
  · rw [if_pos hl]
    exact (stopAllFrom_spec ns 0 false s hnd).2.2.2.2.1
  · rw [if_neg hl]

theorem stopAll_config (ns : Option String) (s : ServiceState)
    (hnd : s.runningInstances.Nodup) :
    (stopAll ns s).1.config = s.config := by
  unfold stopAll
  by_cases hl : 0 < s.runningInstances.length
  · rw [if_pos hl]
    exact (stopAllFrom_spec ns 0 false s hnd).2.2.2.2.2.1
  · rw [if_neg hl]

theorem stopAll_nextTimer (ns : Option String) (s : ServiceState)
    (hnd : s.runningInstances.Nodup) :
    (stopAll ns s).1.nextTimer = s.nextTimer := by
  unfold stopAll
  by_cases hl : 0 < s.runningInstances.length
  · rw [if_pos hl]
    exact (stopAllFrom_spec ns 0 false s hnd).2.2.2.2.2.2
  · rw [if_neg hl]

end NgxPageScroll

namespace NgxPageScroll

/-! Path lemmas for `start`. -/

theorem start_eq (instId : Nat) (now : ℚ) (s : ServiceState)
    (inst0 : PageScrollInstance) (h : s.store instId = some inst0) :
    start instId now s = startAfterStop instId now
      ((stopAll (mergeOptions s.config inst0.requestedOptions).nmspace
        { s with store := (storeSet s.store instId
          { inst0 with pageScrollOptions := mergeOptions s.config inst0.requestedOptions }) }).1) := by
  unfold start
  simp only [h]

theorem startAfterStop_noViews (instId : Nat) (now : ℚ) (s : ServiceState)
    (inst : PageScrollInstance) (h : s.store instId = some inst)
    (hv : inst.pageScrollOptions.scrollViews = none
      ∨ ∃ vs, inst.pageScrollOptions.scrollViews = some vs ∧ vs.length = 0) :
    startAfterStop instId now s = s := by
  unfold startAfterStop
  rcases hv with hv | ⟨vs, hv, hlen⟩
  · simp only [h, hv]
  · simp only [h, hv, if_pos hlen]

theorem startAfterStop_nan (instId : Nat) (now : ℚ) (s : ServiceState)
    (inst : PageScrollInstance) (vs : List (Option Nat)) (startPos : ℚ)
    (h : s.store instId = some inst)
    (hviews : inst.pageScrollOptions.scrollViews = some vs)
    (hlen : ¬ vs.length = 0)
    (htl : inst.scrollTargetTopLeft = none)
    (hsp : startPos = findStartScrollPosition s.dom vs) :
    startAfterStop instId now s = { s with
      store := (storeSet s.store instId { inst with
        startScrollPosition := startPos
        targetScrollPosition := none
        distanceToScroll := none }),
      events := s.events ++ [(instId, false)] } := by
  subst hsp
  unfold startAfterStop computeTargetPosition
  simp only [h, hviews, htl, if_neg hlen, Option.map_none']

theorem startAfterStop_shortcircuit (instId : Nat) (now : ℚ) (s : ServiceState)
    (inst : PageScrollInstance) (vs : List (Option Nat)) (tl : ℚ × ℚ)
    (startPos target d : ℚ)
    (h : s.store instId = some inst)
    (hviews : inst.pageScrollOptions.scrollViews = some vs)
    (hlen : ¬ vs.length = 0)
    (htl : inst.scrollTargetTopLeft = some tl)
    (hsp : startPos = findStartScrollPosition s.dom vs)
    (htarget : target = jsRound ((if inst.pageScrollOptions.isVerticalScrolling
        then tl.1 else tl.2) - inst.currentOffset))
    (hd : d = target - startPos)
    (hshort : shortcircuitNow inst.pageScrollOptions d = true) :
    startAfterStop instId now s = { s with
      store := (storeSet s.store instId { inst with
        startScrollPosition := startPos
        targetScrollPosition := some target
        distanceToScroll := some d
        executionDuration := computeExecutionDuration inst.pageScrollOptions.duration
          inst.pageScrollOptions.speed d }),
      dom := (applyScrollPosition s.dom vs target).1,
      events := s.events ++ [(instId, true)] } := by
  subst hsp htarget hd
  unfold startAfterStop computeTargetPosition
  simp only [h, hviews, htl, if_neg hlen, Option.map_some', hshort, if_true, Option.getD_some]

theorem startAfterStop_schedule (instId : Nat) (now : ℚ) (s : ServiceState)
    (inst : PageScrollInstance) (vs : List (Option Nat)) (tl : ℚ × ℚ)
    (startPos target d : ℚ)
    (h : s.store instId = some inst)
    (hviews : inst.pageScrollOptions.scrollViews = some vs)
    (hlen : ¬ vs.length = 0)
    (htl : inst.scrollTargetTopLeft = some tl)
    (hsp : startPos = findStartScrollPosition s.dom vs)
    (htarget : target = jsRound ((if inst.pageScrollOptions.isVerticalScrolling
        then tl.1 else tl.2) - inst.currentOffset))
    (hd : d = target - startPos)
    (hshort : shortcircuitNow inst.pageScrollOptions d = false) :
    startAfterStop instId now s = { s with
      store := (storeSet s.store instId
        { (if inst.pageScrollOptions.interruptible then
            { inst with
              startScrollPosition := startPos
              targetScrollPosition := some target
              distanceToScroll := some d
              executionDuration := computeExecutionDuration inst.pageScrollOptions.duration
                inst.pageScrollOptions.speed d
              interruptListenersAttached := true }
          else
            { inst with
              startScrollPosition := startPos
              targetScrollPosition := some target
              distanceToScroll := some d
              executionDuration := computeExecutionDuration inst.pageScrollOptions.duration
                inst.pageScrollOptions.speed d }) with
          startTime := now
          endTime := ((computeExecutionDuration inst.pageScrollOptions.duration
            inst.pageScrollOptions.speed d).map (now + ·))
          timer := some s.nextTimer }),
      nextTimer := s.nextTimer + 1,
      runningInstances := s.runningInstances ++ [instId] } := by
  subst hsp htarget hd
  unfold startAfterStop computeTargetPosition
  simp only [h, hviews, htl, if_neg hlen, Option.map_some', hshort, Bool.false_eq_true,
    if_false]

end NgxPageScroll

namespace NgxPageScroll

/-! ## Claim theorems -/

/-- C8: the execution duration computed by `start` equals the configured
duration whenever a duration is given; only when a speed value is configured
and no duration is given does it equal `|distance| / speed * 1000`, and with
neither option set it stays undefined. -/
theorem claim_C8_execution_duration (duration speed : Option ℚ) (dist x v : ℚ) :
    (duration = some x → computeExecutionDuration duration speed dist = some x) ∧
    (duration = none → speed = some v → v ≠ 0 →
      computeExecutionDuration duration speed dist = some (|dist| / v * 1000)) ∧
    (duration = none → speed = none → computeExecutionDuration duration speed dist = none) := by
  refine ⟨?_, ?_, ?_⟩
  · rintro rfl
    rfl
  · rintro rfl rfl h3
    simp [computeExecutionDuration, h3]
  · rintro rfl rfl
    rfl

theorem claim_C8_witness :
    computeExecutionDuration (some 5) none 3 = some 5 ∧
    computeExecutionDuration none (some 2) 300 = some (|(300 : ℚ)| / 2 * 1000) :=
  ⟨(claim_C8_execution_duration (some 5) none 3 5 1).1 rfl,
   (claim_C8_execution_duration none (some 2) 300 0 2).2.1 rfl rfl (by norm_num)⟩

/-- C6: while an interruptible instance is running, a key release whose code
is not in the configured interrupt-key set never stops it, and a mouse press
outside every scroll-view target never stops it; a key release with a
configured code, or a mouse press inside some scroll view, stops the whole
namespace via `stopAll`; a non-interruptible instance ignores every event. -/
theorem claim_C6_interrupt_policy (s : ServiceState) (instId : Nat)
    (inst : PageScrollInstance) (h : s.store instId = some inst) :
    (inst.pageScrollOptions.interruptible = false →
      ∀ ev, onInterruptedReport ev instId s = s) ∧
    (inst.pageScrollOptions.interruptible = true →
      (∀ keyCode : Int, s.config.interruptKeys.contains keyCode = false →
        onInterruptedReport (.keyup keyCode) instId s = s) ∧
      (∀ containedIn : List Nat,
        someViewContains inst.pageScrollOptions.scrollViews containedIn = false →
        onInterruptedReport (.mousedown containedIn) instId s = s) ∧
      (∀ keyCode : Int, s.config.interruptKeys.contains keyCode = true →
        onInterruptedReport (.keyup keyCode) instId s
          = (stopAll inst.pageScrollOptions.nmspace s).1) ∧
      (∀ containedIn : List Nat,
        someViewContains inst.pageScrollOptions.scrollViews containedIn = true →
        onInterruptedReport (.mousedown containedIn) instId s
          = (stopAll inst.pageScrollOptions.nmspace s).1)) := by
  constructor
  · intro hni ev
    unfold onInterruptedReport
    simp [h, hni]
  · intro hint
    refine ⟨?_, ?_, ?_, ?_⟩ <;> intro x hx <;>
      · unfold onInterruptedReport
        simp [h, hint, hx]
        all_goals
          intro hmem
          exact absurd hmem (by simpa using hx)

theorem claim_C6_witness :
    (onInterruptedReport (.keyup 99) 1 runningState = runningState) ∧
    (onInterruptedReport (.mousedown [7]) 1 runningState = runningState) ∧
    (onInterruptedReport (.keyup 27) 1 runningState
      = (stopAll runningInstance.pageScrollOptions.nmspace runningState).1) ∧
    (onInterruptedReport (.mousedown [1]) 1 runningState
      = (stopAll runningInstance.pageScrollOptions.nmspace runningState).1) :=
  ⟨((claim_C6_interrupt_policy runningState 1 runningInstance rfl).2 rfl).1 99 (by decide),
   ((claim_C6_interrupt_policy runningState 1 runningInstance rfl).2 rfl).2.1 [7] (by decide),
   ((claim_C6_interrupt_policy runningState 1 runningInstance rfl).2 rfl).2.2.1 27 (by decide),
   ((claim_C6_interrupt_policy runningState 1 runningInstance rfl).2 rfl).2.2.2 [1] (by decide)⟩

end NgxPageScroll

namespace NgxPageScroll

/-- C7: `stop` on an instance without an active timer returns `false` and (for
a properly stopped instance: not in the running set, listeners detached) has
no side effect at all; `stop` on a running instance clears its timer, fires
the completion callback with `false` and returns `true`; a second `stop` on
the same instance always returns `false`. -/
theorem claim_C7_stop_idempotence (s : ServiceState) (instId : Nat)
    (inst : PageScrollInstance) (h : s.store instId = some inst) :
    (inst.timer = none → (stop instId s).2 = false) ∧
    (inst.timer = none → inst.interruptListenersAttached = false →
      instId ∉ s.runningInstances → (stop instId s).1 = s) ∧
    (∀ k, inst.timer = some k →
      (stop instId s).2 = true ∧
      (stop instId s).1.store instId = some (clearRun inst) ∧
      (stop instId s).1.events = s.events ++ [(instId, false)]) ∧
    (stop instId ((stop instId s).1)).2 = false := by
  refine ⟨?_, ?_, ?_, ?_⟩
  · intro ht
    unfold stop
    rw [stopInternal_snd]
    unfold timerOn
    simp [h, ht]
  · intro ht hl hm
    have hcr : clearRun inst = inst := by
      unfold clearRun
      rw [← hl, ← ht]
    have hss : storeSet s.store instId inst = s.store := by
      funext k
      unfold storeSet
      by_cases hk : k = instId
      · subst hk
        simp [h]
      · simp [hk]
    unfold stop stopInternal
    simp only [h, ht, List.erase_of_not_mem hm, hcr, hss]
  · intro k ht
    refine ⟨?_, ?_, ?_⟩
    · unfold stop
      rw [stopInternal_snd]
      unfold timerOn
      simp [h, ht]
    · unfold stop
      rw [stopInternal_store, if_pos rfl, h]
      rfl
    · unfold stop
      rw [stopInternal_events]
      unfold timerOn
      simp [h, ht]
  · have h2 : (stop instId s).1.store instId = some (clearRun inst) := by
      unfold stop
      rw [stopInternal_store, if_pos rfl, h]
      rfl
    conv_lhs => rw [stop]
    rw [stopInternal_snd]
    unfold timerOn
    simp [h2, clearRun]

theorem claim_C7_witness :
    ((stop 1 sampleState).2 = false) ∧
    ((stop 1 sampleState).1 = sampleState) ∧
    ((stop 1 runningState).2 = true ∧
      (stop 1 runningState).1.store 1 = some (clearRun runningInstance) ∧
      (stop 1 runningState).1.events = runningState.events ++ [(1, false)]) ∧
    ((stop 1 ((stop 1 runningState).1)).2 = false) :=
  ⟨(claim_C7_stop_idempotence sampleState 1 sampleInstance rfl).1 rfl,
   (claim_C7_stop_idempotence sampleState 1 sampleInstance rfl).2.1 rfl rfl (by decide),
   (claim_C7_stop_idempotence runningState 1 runningInstance rfl).2.2.1 1 rfl,
   (claim_C7_stop_idempotence runningState 1 runningInstance rfl).2.2.2⟩

/-- C1: whenever a tick marks the animation for stop — natural completion
(current time at or past the end time) or write-failure early-abort (the new
position could not be applied to any scroll view) — the tick performs the
internal stop sequence with `interrupted = false`, so the completion callback
fires with success `true` in both cases, including the write-failure abort. -/
theorem claim_C1_tick_stop_success (s : ServiceState) (instId : Nat)
    (inst : PageScrollInstance) (currentTime : ℚ) (k : Nat)
    (h : s.store instId = some inst) (htimer : inst.timer = some k)
    (hstop : tickReachedEnd inst currentTime = true ∨
      (applyScrollPosition s.dom (inst.pageScrollOptions.scrollViews.getD [])
        (tickNewPosition inst currentTime)).2 = false) :
    tick instId currentTime s
      = (stopInternal false instId { s with
          dom := (applyScrollPosition s.dom (inst.pageScrollOptions.scrollViews.getD [])
            (tickNewPosition inst currentTime)).1 }).1 ∧
    (tick instId currentTime s).events = s.events ++ [(instId, true)] := by
  have hcond : (tickReachedEnd inst currentTime
      || !(applyScrollPosition s.dom (inst.pageScrollOptions.scrollViews.getD [])
        (tickNewPosition inst currentTime)).2) = true := by
    rcases hstop with h1 | h1 <;> simp [h1]
  have h1 : tick instId currentTime s
      = (stopInternal false instId { s with
          dom := (applyScrollPosition s.dom (inst.pageScrollOptions.scrollViews.getD [])
            (tickNewPosition inst currentTime)).1 }).1 := by
    unfold tick
    simp only [h, hcond, if_true]
  refine ⟨h1, ?_⟩
  rw [h1, stopInternal_events]
  have hto : timerOn { s with
      dom := (applyScrollPosition s.dom (inst.pageScrollOptions.scrollViews.getD [])
        (tickNewPosition inst currentTime)).1 } instId = true := by
    unfold timerOn
    simp only [h, htimer]
    rfl
  rw [hto]
  simp

theorem claim_C1_witness :
    tick 1 200 runningState
      = (stopInternal false 1 { runningState with
          dom := (applyScrollPosition runningState.dom
            (runningInstance.pageScrollOptions.scrollViews.getD [])
            (tickNewPosition runningInstance 200)).1 }).1 ∧
    (tick 1 200 runningState).events = runningState.events ++ [(1, true)] :=
  claim_C1_tick_stop_success runningState 1 runningInstance 200 1 rfl rfl
    (Or.inl (by decide))

end NgxPageScroll

namespace NgxPageScroll

theorem runMatches_eq_namespaceOf (s : ServiceState) (ns : String) (hns : ns ≠ "")
    (instId : Nat) :
    runMatches s (some ns) instId = (namespaceOf s instId == some ns) := by
  unfold runMatches namespaceOf nsFalsy
  cases h : s.store instId <;> simp [h, hns]

/-- C5: `stopAll` with a non-empty namespace stops (interrupted, so with a
`false` completion event) exactly the running instances of that namespace, in
order and without skipping any despite the in-place removal; all others stay
running with untouched run-state; the result is `true` iff some running
instance matched. -/
theorem claim_C5_stopAll_namespace (ns : String) (s : ServiceState)
    (hns : ns ≠ "")
    (hnd : s.runningInstances.Nodup)
    (hrt : ∀ id ∈ s.runningInstances, timerOn s id = true) :
    ((stopAll (some ns) s).1.runningInstances
        = s.runningInstances.filter (fun id => !(namespaceOf s id == some ns))) ∧
    ((stopAll (some ns) s).1.events = s.events
        ++ (s.runningInstances.filter (fun id => namespaceOf s id == some ns)).map
          (fun id => (id, false))) ∧
    (∀ id ∈ s.runningInstances, (namespaceOf s id == some ns) = true →
        timerOn (stopAll (some ns) s).1 id = false) ∧
    (∀ id ∈ s.runningInstances, (namespaceOf s id == some ns) = false →
        (stopAll (some ns) s).1.store id = s.store id) ∧
    ((stopAll (some ns) s).2 = true ↔
        ∃ id ∈ s.runningInstances, (namespaceOf s id == some ns) = true) := by
  have hrm : ∀ id, runMatches s (some ns) id = (namespaceOf s id == some ns) :=
    runMatches_eq_namespaceOf s ns hns
  refine ⟨?_, ?_, ?_, ?_, ?_⟩
  · rw [stopAll_runningInstances _ _ hnd]
    simp only [hrm]
  · rw [stopAll_events _ _ hnd]
    unfold stopAllResultEvents
    have hfe : s.runningInstances.filter (fun id => runMatches s (some ns) id && timerOn s id)
        = s.runningInstances.filter (fun id => namespaceOf s id == some ns) :=
      List.filter_congr (fun x hx => by rw [hrm, hrt x hx, Bool.and_true])
    rw [hfe]
  · intro id hid hmatch
    unfold timerOn
    rw [stopAll_store _ _ hnd,
      if_pos (List.mem_filter.mpr ⟨hid, by rw [hrm]; exact hmatch⟩)]
    cases h : s.store id <;> simp [clearRun]
  · intro id hid hnm
    rw [stopAll_store _ _ hnd, if_neg]
    intro hmem
    have := (List.mem_filter.mp hmem).2
    rw [hrm, hnm] at this
    cases this
  · rw [stopAll_snd _ _ hnd]
    simp only [List.any_eq_true, hrm]

theorem claim_C5_witness :
    ((stopAll (some "default") twoNamespaceState).1.runningInstances
        = twoNamespaceState.runningInstances.filter
          (fun id => !(namespaceOf twoNamespaceState id == some "default"))) ∧
    ((stopAll (some "default") twoNamespaceState).1.events = twoNamespaceState.events
        ++ (twoNamespaceState.runningInstances.filter
            (fun id => namespaceOf twoNamespaceState id == some "default")).map
          (fun id => (id, false))) ∧
    (∀ id ∈ twoNamespaceState.runningInstances,
        (namespaceOf twoNamespaceState id == some "default") = true →
        timerOn (stopAll (some "default") twoNamespaceState).1 id = false) ∧
    (∀ id ∈ twoNamespaceState.runningInstances,
        (namespaceOf twoNamespaceState id == some "default") = false →
        (stopAll (some "default") twoNamespaceState).1.store id
          = twoNamespaceState.store id) ∧
    ((stopAll (some "default") twoNamespaceState).2 = true ↔
        ∃ id ∈ twoNamespaceState.runningInstances,
          (namespaceOf twoNamespaceState id == some "default") = true) :=
  claim_C5_stopAll_namespace "default" twoNamespaceState (by decide) (by decide)
    (by decide)

end NgxPageScroll

namespace NgxPageScroll

theorem startAfterStop_runningInstances_cases (instId : Nat) (now : ℚ) (s : ServiceState) :
    (startAfterStop instId now s).runningInstances = s.runningInstances ∨
    (startAfterStop instId now s).runningInstances = s.runningInstances ++ [instId] := by
  cases h : s.store instId with
  | none =>
    left
    simp only [startAfterStop, h]
  | some inst =>
    cases hv : inst.pageScrollOptions.scrollViews with
    | none =>
      left
      simp only [startAfterStop, h, hv]
    | some vs =>
      by_cases hlen : vs.length = 0
      · left
        simp only [startAfterStop, h, hv, if_pos hlen]
      · cases hdist : Option.map (fun tp => tp - findStartScrollPosition s.dom vs)
            (computeTargetPosition inst.pageScrollOptions
              { inst with startScrollPosition := findStartScrollPosition s.dom vs }) with
        | none =>
          left
          simp only [startAfterStop, h, hv, if_neg hlen, hdist]
        | some d =>
          by_cases hsc : shortcircuitNow inst.pageScrollOptions d = true
          · left
            simp only [startAfterStop, h, hv, if_neg hlen, hdist, hsc, if_true]
          · right
            simp only [startAfterStop, h, hv, if_neg hlen, hdist, hsc,
              Bool.false_eq_true, if_false]

/-- C9: a falsy (`undefined` or empty) namespace makes `stopAll` stop every
running instance, returning `true` iff any instance was running; hence
starting an instance whose merged namespace is falsy leaves at most the new
instance running, whatever the namespaces of the previously running ones. -/
theorem claim_C9_falsy_namespace_stops_all (ns : Option String) (s : ServiceState)
    (instId : Nat) (inst0 : PageScrollInstance) (now : ℚ)
    (hnd : s.runningInstances.Nodup)
    (hfalsy : nsFalsy ns = true)
    (h : s.store instId = some inst0)
    (hfalsy2 : nsFalsy (mergeOptions s.config inst0.requestedOptions).nmspace = true) :
    ((stopAll ns s).1.runningInstances = []) ∧
    ((stopAll ns s).2 = !s.runningInstances.isEmpty) ∧
    (∀ id ∈ (start instId now s).runningInstances, id = instId) := by
  have hall : ∀ (s' : ServiceState) (id : Nat), s'.runningInstances = s.runningInstances →
      runMatches s' ns id = true := by
    intro s' id _
    unfold runMatches
    rw [hfalsy]
    rfl
  refine ⟨?_, ?_, ?_⟩
  · rw [stopAll_runningInstances _ _ hnd]
    have hfil : ∀ x ∈ s.runningInstances, (!runMatches s ns x) = false := by
      intro x _
      rw [hall s x rfl]
      rfl
    rw [List.filter_congr hfil]
    simp
  · rw [stopAll_snd _ _ hnd]
    cases hl : s.runningInstances with
    | nil => rfl
    | cons a l =>
      simp only [List.any_cons]
      rw [hall s a (by rfl)]
      rfl
  · intro id hid
    rw [start_eq instId now s inst0 h] at hid
    set s1 : ServiceState := { s with store := (storeSet s.store instId
      { inst0 with pageScrollOptions := mergeOptions s.config inst0.requestedOptions }) }
      with hs1
    set ns2 := (mergeOptions s.config inst0.requestedOptions).nmspace with hns2
    have hnd1 : s1.runningInstances.Nodup := hnd
    have hrun2 : (stopAll ns2 s1).1.runningInstances = [] := by
      rw [stopAll_runningInstances _ _ hnd1]
      have hfil : ∀ x ∈ s1.runningInstances, (!runMatches s1 ns2 x) = false := by
        intro x _
        have hm : runMatches s1 ns2 x = true := by
          unfold runMatches
          rw [hns2, hfalsy2]
          rfl
        rw [hm]
        rfl
      rw [List.filter_congr hfil]
      simp
    rcases startAfterStop_runningInstances_cases instId now (stopAll ns2 s1).1 with hc | hc
    · rw [hc, hrun2] at hid
      cases hid
    · rw [hc, hrun2] at hid
      simpa using hid

theorem claim_C9_witness :
    ((stopAll none noNamespaceState).1.runningInstances = []) ∧
    ((stopAll none noNamespaceState).2 = !noNamespaceState.runningInstances.isEmpty) ∧
    (∀ id ∈ (start 1 0 noNamespaceState).runningInstances, id = 1) :=
  claim_C9_falsy_namespace_stops_all none noNamespaceState 1 runningInstanceNoNs 0
    (by decide) rfl rfl (by decide)

end NgxPageScroll

namespace NgxPageScroll

theorem applyScrollPosition_written (views : List (Option Nat)) (dom : Dom) (pos : ℚ)
    (vid : Nat) (v : ScrollView) (hv : dom vid = some v) (hw : v.writable = true) :
    ((applyScrollPosition dom views pos).1 vid = some v ∨
      (applyScrollPosition dom views pos).1 vid = some { v with scrollPos := some pos }) ∧
    ((some vid) ∈ views →
      (applyScrollPosition dom views pos).1 vid = some { v with scrollPos := some pos }) := by
  induction views generalizing dom v with
  | nil =>
    refine ⟨Or.inl hv, ?_⟩
    intro hmem
    cases hmem
  | cons hd rest ih =>
    cases hd with
    | none =>
      have hred : applyScrollPosition dom (none :: rest) pos
          = applyScrollPosition dom rest pos := by
        simp only [applyScrollPosition]
      have hih := ih dom v hv hw
      refine ⟨?_, ?_⟩
      · rw [hred]
        exact hih.1
      · intro hmem
        rw [hred]
        rcases List.mem_cons.mp hmem with h1 | h1
        · cases h1
        · exact hih.2 h1
    | some w =>
      by_cases hvw : vid = w
      · subst hvw
        have hred : applyScrollPosition dom (some vid :: rest) pos
            = ((applyScrollPosition (domSet dom vid { v with scrollPos := some pos })
                rest pos).1, true) := by
          simp only [applyScrollPosition]
          rw [hv]
          simp [hw]
        have hdom1 : (domSet dom vid { v with scrollPos := some pos }) vid
            = some { v with scrollPos := some pos } := by
          unfold domSet
          simp
        have hih := ih (domSet dom vid { v with scrollPos := some pos })
          { v with scrollPos := some pos } hdom1 hw
        refine ⟨?_, fun _ => ?_⟩
        · rw [hred]
          rcases hih.1 with h1 | h1 <;> simp [h1]
        · rw [hred]
          rcases hih.1 with h1 | h1 <;> simp [h1]
      · cases hw2 : dom w with
        | none =>
          have hred : applyScrollPosition dom (some w :: rest) pos
              = applyScrollPosition dom rest pos := by
            simp only [applyScrollPosition]
            rw [hw2]
          have hih := ih dom v hv hw
          refine ⟨?_, ?_⟩
          · rw [hred]
            exact hih.1
          · intro hmem
            rw [hred]
            rcases List.mem_cons.mp hmem with h1 | h1
            · cases h1
              exact absurd rfl hvw
            · exact hih.2 h1
        | some vw =>
          by_cases hww : vw.writable = true
          · have hred : applyScrollPosition dom (some w :: rest) pos
                = ((applyScrollPosition (domSet dom w { vw with scrollPos := some pos })
                    rest pos).1, true) := by
              simp only [applyScrollPosition]
              rw [hw2]
              simp [hww]
            have hdom1 : (domSet dom w { vw with scrollPos := some pos }) vid = some v := by
              unfold domSet
              rw [if_neg hvw, hv]
            have hih := ih (domSet dom w { vw with scrollPos := some pos }) v hdom1 hw
            refine ⟨?_, ?_⟩
            · rw [hred]
              exact hih.1
            · intro hmem
              rw [hred]
              rcases List.mem_cons.mp hmem with h1 | h1
              · cases h1
                exact absurd rfl hvw
              · exact hih.2 h1
          · have hred : applyScrollPosition dom (some w :: rest) pos
                = applyScrollPosition dom rest pos := by
              simp only [applyScrollPosition]
              rw [hw2]
              simp [hww]
            have hih := ih dom v hv hw
            refine ⟨?_, ?_⟩
            · rw [hred]
              exact hih.1
            · intro hmem
              rw [hred]
              rcases List.mem_cons.mp hmem with h1 | h1
              · cases h1
                exact absurd rfl hvw
              · exact hih.2 h1

theorem applyScrollPosition_failed (views : List (Option Nat)) (dom : Dom) (pos : ℚ)
    (hfail : (applyScrollPosition dom views pos).2 = false) :
    (applyScrollPosition dom views pos).1 = dom := by
  induction views generalizing dom with
  | nil => rfl
  | cons hd rest ih =>
    cases hd with
    | none =>
      have h1 : applyScrollPosition dom (none :: rest) pos
          = applyScrollPosition dom rest pos := by
        simp only [applyScrollPosition]
      rw [h1] at hfail ⊢
      exact ih dom hfail
    | some w =>
      cases hw : dom w with
      | none =>
        have h1 : applyScrollPosition dom (some w :: rest) pos
            = applyScrollPosition dom rest pos := by
          simp only [applyScrollPosition]
          rw [hw]
        rw [h1] at hfail ⊢
        exact ih dom hfail
      | some vw =>
        by_cases hww : vw.writable = true
        · have h1 : (applyScrollPosition dom (some w :: rest) pos).2 = true := by
            simp only [applyScrollPosition]
            rw [hw]
            simp [hww]
          rw [h1] at hfail
          cases hfail
        · have h1 : applyScrollPosition dom (some w :: rest) pos
              = applyScrollPosition dom rest pos := by
            simp only [applyScrollPosition]
            rw [hw]
            simp [hww]
          rw [h1] at hfail ⊢
          exact ih dom hfail

end NgxPageScroll

namespace NgxPageScroll

/-- C4: when `|distance|` is under the minimum-scroll-distance threshold or
the execution duration is at most one tick interval, `start` synchronously
writes the target position to the scroll views (every writable target ends at
the target position), fires the completion callback with `true`, schedules no
timer, and adds no entry to the running set. -/
theorem claim_C4_immediate_shortcircuit (s : ServiceState) (instId : Nat)
    (inst0 : PageScrollInstance) (now : ℚ)
    (vs : List (Option Nat)) (tl : ℚ × ℚ) (startPos target d : ℚ)
    (hnd : s.runningInstances.Nodup)
    (h : s.store instId = some inst0)
    (htimer : inst0.timer = none)
    (hviews : (mergeOptions s.config inst0.requestedOptions).scrollViews = some vs)
    (hlen : ¬ vs.length = 0)
    (htl : inst0.scrollTargetTopLeft = some tl)
    (hsp : startPos = findStartScrollPosition s.dom vs)
    (htarget : target = jsRound
      ((if (mergeOptions s.config inst0.requestedOptions).isVerticalScrolling
        then tl.1 else tl.2) - inst0.currentOffset))
    (hd : d = target - startPos)
    (hshort : shortcircuitNow (mergeOptions s.config inst0.requestedOptions) d = true) :
    ((start instId now s).events).getLast? = some (instId, true) ∧
    (start instId now s).dom = (applyScrollPosition s.dom vs target).1 ∧
    (∀ vid v, (some vid) ∈ vs → s.dom vid = some v → v.writable = true →
      (start instId now s).dom vid = some { v with scrollPos := some target }) ∧
    ((start instId now s).store instId).map (fun i => i.timer) = some none ∧
    (start instId now s).nextTimer = s.nextTimer ∧
    instId ∉ (start instId now s).runningInstances ∧
    (∀ id ∈ (start instId now s).runningInstances, id ∈ s.runningInstances) := by
  rw [start_eq instId now s inst0 h]
  set inst1 : PageScrollInstance :=
    { inst0 with pageScrollOptions := mergeOptions s.config inst0.requestedOptions } with hinst1
  set s1 : ServiceState := { s with store := (storeSet s.store instId inst1) } with hs1
  set ns2 := (mergeOptions s.config inst0.requestedOptions).nmspace with hns2
  have hs1nd : s1.runningInstances.Nodup := hnd
  have hs1store : s1.store instId = some inst1 := by
    simp [hs1, storeSet]
  have hexists : ∃ instS : PageScrollInstance,
      (stopAll ns2 s1).1.store instId = some instS ∧
      instS.pageScrollOptions = mergeOptions s.config inst0.requestedOptions ∧
      instS.scrollTargetTopLeft = inst0.scrollTargetTopLeft ∧
      instS.currentOffset = inst0.currentOffset ∧
      instS.timer = none := by
    rw [stopAll_store ns2 s1 hs1nd instId]
    by_cases hmem : instId ∈ s1.runningInstances.filter (runMatches s1 ns2)
    · refine ⟨clearRun inst1, ?_, rfl, rfl, rfl, rfl⟩
      rw [if_pos hmem, hs1store]
      rfl
    · refine ⟨inst1, ?_, rfl, rfl, rfl, htimer⟩
      rw [if_neg hmem, hs1store]
  obtain ⟨instS, hS, hSopts, hStl, hSoff, hStimer⟩ := hexists
  have hs2dom : (stopAll ns2 s1).1.dom = s.dom := stopAll_dom ns2 s1 hs1nd
  have hs2next : (stopAll ns2 s1).1.nextTimer = s.nextTimer := stopAll_nextTimer ns2 s1 hs1nd
  have hs2run := stopAll_runningInstances ns2 s1 hs1nd
  have hmain := startAfterStop_shortcircuit instId now (stopAll ns2 s1).1 instS vs tl
    startPos target d hS
    (by rw [hSopts]; exact hviews)
    hlen
    (by rw [hStl]; exact htl)
    (by rw [hs2dom]; exact hsp)
    (by rw [hSopts, hSoff]; exact htarget)
    hd
    (by rw [hSopts]; exact hshort)
  rw [hmain]
  have hnotrun : instId ∉ (stopAll ns2 s1).1.runningInstances := by
    rw [hs2run]
    intro hmem
    have hb := (List.mem_filter.mp hmem).2
    have hrm : runMatches s1 ns2 instId = true := by
      unfold runMatches
      rw [hs1store, hinst1, hns2]
      simp
    rw [hrm] at hb
    cases hb
  refine ⟨?_, ?_, ?_, ?_, ?_, ?_, ?_⟩
  · simp
  · rw [hs2dom]
  · intro vid v hvmem hvdom hvw
    show (applyScrollPosition (stopAll ns2 s1).1.dom vs target).1 vid
      = some { v with scrollPos := some target }
    rw [hs2dom]
    exact (applyScrollPosition_written vs s.dom target vid v hvdom hvw).2 hvmem
  · show ((storeSet (stopAll ns2 s1).1.store instId
      { instS with
        startScrollPosition := startPos
        targetScrollPosition := some target
        distanceToScroll := some d
        executionDuration := computeExecutionDuration instS.pageScrollOptions.duration
          instS.pageScrollOptions.speed d }) instId).map (fun i => i.timer) = some none
    simp [storeSet, hStimer]
  · exact hs2next
  · exact hnotrun
  · intro id hid
    rw [hs2run] at hid
    exact (List.mem_filter.mp hid).1

theorem claim_C4_witness :
    ((start 1 0 closeState).events).getLast? = some (1, true) ∧
    (start 1 0 closeState).dom = (applyScrollPosition closeState.dom [some 1] 1).1 ∧
    (start 1 0 closeState).dom 1 = some ⟨some 1, true⟩ ∧
    ((start 1 0 closeState).store 1).map (fun i => i.timer) = some none ∧
    (start 1 0 closeState).nextTimer = closeState.nextTimer ∧
    1 ∉ (start 1 0 closeState).runningInstances := by
  have hmain := claim_C4_immediate_shortcircuit closeState 1 closeInstance 0 [some 1] (1, 0)
    0 1 1 (by decide) rfl rfl rfl (by decide) rfl rfl
    (by show (1 : ℚ) = jsRound ((1 : ℚ) - 0); rw [jsRound]; norm_num)
    (by norm_num) rfl
  exact ⟨hmain.1, hmain.2.1,
    hmain.2.2.1 1 ⟨some 0, true⟩ (by decide) rfl rfl,
    hmain.2.2.2.1, hmain.2.2.2.2.1, hmain.2.2.2.2.2.1⟩

end NgxPageScroll

namespace NgxPageScroll

/-- C10: in the immediate-completion short-circuit path of `start`, the
boolean result of applying the target position to the scroll views is
ignored: even when the write fails for every target (so the DOM is left
unchanged and the target was never reached), the completion callback fires
with success `true` — unlike the mid-animation tick path, where a failed
write to all targets triggers an early stop (`claim_C1`-style behaviour). -/
theorem claim_C10_shortcircuit_ignores_write_failure (s : ServiceState) (instId : Nat)
    (inst0 : PageScrollInstance) (now : ℚ)
    (vs : List (Option Nat)) (tl : ℚ × ℚ) (startPos target d : ℚ)
    (hnd : s.runningInstances.Nodup)
    (h : s.store instId = some inst0)
    (hviews : (mergeOptions s.config inst0.requestedOptions).scrollViews = some vs)
    (hlen : ¬ vs.length = 0)
    (htl : inst0.scrollTargetTopLeft = some tl)
    (hsp : startPos = findStartScrollPosition s.dom vs)
    (htarget : target = jsRound
      ((if (mergeOptions s.config inst0.requestedOptions).isVerticalScrolling
        then tl.1 else tl.2) - inst0.currentOffset))
    (hd : d = target - startPos)
    (hshort : shortcircuitNow (mergeOptions s.config inst0.requestedOptions) d = true)
    (hfail : (applyScrollPosition s.dom vs target).2 = false) :
    ((start instId now s).events).getLast? = some (instId, true) ∧
    (start instId now s).dom = s.dom := by
  rw [start_eq instId now s inst0 h]
  set inst1 : PageScrollInstance :=
    { inst0 with pageScrollOptions := mergeOptions s.config inst0.requestedOptions } with hinst1
  set s1 : ServiceState := { s with store := (storeSet s.store instId inst1) } with hs1
  set ns2 := (mergeOptions s.config inst0.requestedOptions).nmspace with hns2
  have hs1nd : s1.runningInstances.Nodup := hnd
  have hs1store : s1.store instId = some inst1 := by
    simp [hs1, storeSet]
  have hexists : ∃ instS : PageScrollInstance,
      (stopAll ns2 s1).1.store instId = some instS ∧
      instS.pageScrollOptions = mergeOptions s.config inst0.requestedOptions ∧
      instS.scrollTargetTopLeft = inst0.scrollTargetTopLeft ∧
      instS.currentOffset = inst0.currentOffset := by
    rw [stopAll_store ns2 s1 hs1nd instId]
    by_cases hmem : instId ∈ s1.runningInstances.filter (runMatches s1 ns2)
    · refine ⟨clearRun inst1, ?_, rfl, rfl, rfl⟩
      rw [if_pos hmem, hs1store]
      rfl
    · refine ⟨inst1, ?_, rfl, rfl, rfl⟩
      rw [if_neg hmem, hs1store]
  obtain ⟨instS, hS, hSopts, hStl, hSoff⟩ := hexists
  have hs2dom : (stopAll ns2 s1).1.dom = s.dom := stopAll_dom ns2 s1 hs1nd
  have hmain := startAfterStop_shortcircuit instId now (stopAll ns2 s1).1 instS vs tl
    startPos target d hS
    (by rw [hSopts]; exact hviews)
    hlen
    (by rw [hStl]; exact htl)
    (by rw [hs2dom]; exact hsp)
    (by rw [hSopts, hSoff]; exact htarget)
    hd
    (by rw [hSopts]; exact hshort)
  rw [hmain]
  refine ⟨?_, ?_⟩
  · simp
  · show (applyScrollPosition (stopAll ns2 s1).1.dom vs target).1 = s.dom
    rw [hs2dom]
    exact applyScrollPosition_failed vs s.dom target hfail

theorem claim_C10_witness :
    ((start 1 0 failState).events).getLast? = some (1, true) ∧
    (start 1 0 failState).dom = failState.dom := by
  have hmain := claim_C10_shortcircuit_ignores_write_failure failState 1 closeInstance 0
    [some 1] (1, 0) 0 1 1 (by decide) rfl rfl (by decide) rfl rfl
    (by show (1 : ℚ) = jsRound ((1 : ℚ) - 0); rw [jsRound]; norm_num)
    (by norm_num) rfl rfl
  exact hmain

end NgxPageScroll

namespace NgxPageScroll

theorem namespaceOf_stopAll (ns : Option String) (s : ServiceState)
    (hnd : s.runningInstances.Nodup) (k : Nat) :
    namespaceOf (stopAll ns s).1 k = namespaceOf s k := by
  unfold namespaceOf
  rw [stopAll_store _ _ hnd k]
  by_cases hmem : k ∈ s.runningInstances.filter (runMatches s ns)
  · rw [if_pos hmem]
    cases hk : s.store k <;> simp [clearRun]
  · rw [if_neg hmem]

theorem startAfterStop_preserves (instId : Nat) (now : ℚ) (s : ServiceState) :
    (∀ k, k ≠ instId → (startAfterStop instId now s).store k = s.store k) ∧
    (namespaceOf (startAfterStop instId now s) instId = namespaceOf s instId) ∧
    (∃ rest, (startAfterStop instId now s).events = s.events ++ rest ∧
      ∀ e ∈ rest, e.1 = instId) := by
  cases h : s.store instId with
  | none =>
    have hred : startAfterStop instId now s = s := by
      simp only [startAfterStop, h]
    rw [hred]
    exact ⟨fun k _ => rfl, rfl, [], by simp, by simp⟩
  | some inst =>
    cases hv : inst.pageScrollOptions.scrollViews with
    | none =>
      have hred : startAfterStop instId now s = s := by
        simp only [startAfterStop, h, hv]
      rw [hred]
      exact ⟨fun k _ => rfl, rfl, [], by simp, by simp⟩
    | some vs =>
      by_cases hlen : vs.length = 0
      · have hred : startAfterStop instId now s = s := by
          simp only [startAfterStop, h, hv, if_pos hlen]
        rw [hred]
        exact ⟨fun k _ => rfl, rfl, [], by simp, by simp⟩
      · cases hdist : Option.map (fun tp => tp - findStartScrollPosition s.dom vs)
            (computeTargetPosition inst.pageScrollOptions
              { inst with startScrollPosition := findStartScrollPosition s.dom vs }) with
        | none =>
          have hred : startAfterStop instId now s = { s with
              store := (storeSet s.store instId { inst with
                startScrollPosition := findStartScrollPosition s.dom vs
                targetScrollPosition := computeTargetPosition inst.pageScrollOptions
                  { inst with startScrollPosition := findStartScrollPosition s.dom vs }
                distanceToScroll := Option.map
                  (fun tp => tp - findStartScrollPosition s.dom vs)
                  (computeTargetPosition inst.pageScrollOptions
                    { inst with startScrollPosition := findStartScrollPosition s.dom vs }) }),
              events := s.events ++ [(instId, false)] } := by
            simp only [startAfterStop, h, hv, if_neg hlen, hdist]
          rw [hred]
          refine ⟨fun k hk => by simp [storeSet, hk], ?_, [(instId, false)], rfl, by simp⟩
          unfold namespaceOf
          rw [h]
          simp [storeSet]
        | some d =>
          by_cases hsc : shortcircuitNow inst.pageScrollOptions d = true
          · have hred : (startAfterStop instId now s).store = storeSet s.store instId
                { inst with
                  startScrollPosition := findStartScrollPosition s.dom vs
                  targetScrollPosition := computeTargetPosition inst.pageScrollOptions
                    { inst with startScrollPosition := findStartScrollPosition s.dom vs }
                  distanceToScroll := some d
                  executionDuration := computeExecutionDuration
                    inst.pageScrollOptions.duration inst.pageScrollOptions.speed d } ∧
                (startAfterStop instId now s).events = s.events ++ [(instId, true)] := by
              constructor <;> simp only [startAfterStop, h, hv, if_neg hlen, hdist, hsc,
                if_true]
            refine ⟨fun k hk => by rw [hred.1]; simp [storeSet, hk], ?_,
              [(instId, true)], hred.2, by simp⟩
            unfold namespaceOf
            rw [hred.1, h]
            simp [storeSet]
          · have hred : (startAfterStop instId now s).store = storeSet s.store instId
                { (if inst.pageScrollOptions.interruptible then
                    { inst with
                      startScrollPosition := findStartScrollPosition s.dom vs
                      targetScrollPosition := computeTargetPosition inst.pageScrollOptions
                        { inst with
                          startScrollPosition := findStartScrollPosition s.dom vs }
                      distanceToScroll := some d
                      executionDuration := computeExecutionDuration
                        inst.pageScrollOptions.duration inst.pageScrollOptions.speed d
                      interruptListenersAttached := true }
                  else
                    { inst with
                      startScrollPosition := findStartScrollPosition s.dom vs
                      targetScrollPosition := computeTargetPosition inst.pageScrollOptions
                        { inst with
                          startScrollPosition := findStartScrollPosition s.dom vs }
                      distanceToScroll := some d
                      executionDuration := computeExecutionDuration
                        inst.pageScrollOptions.duration inst.pageScrollOptions.speed d })
                  with
                  startTime := now
                  endTime := ((computeExecutionDuration inst.pageScrollOptions.duration
                    inst.pageScrollOptions.speed d).map (now + ·))
                  timer := some s.nextTimer } ∧
                (startAfterStop instId now s).events = s.events := by
              constructor <;> simp only [startAfterStop, h, hv, if_neg hlen, hdist, hsc,
                Bool.false_eq_true, if_false]
            refine ⟨fun k hk => by rw [hred.1]; simp [storeSet, hk], ?_, [], by
              simp [hred.2], by simp⟩
            unfold namespaceOf
            rw [hred.1, h]
            by_cases hint : inst.pageScrollOptions.interruptible = true <;>
              simp [storeSet, hint]

end NgxPageScroll

namespace NgxPageScroll

/-- C3: `start` stops — as interrupted, with a `false` completion event fired
during the call — every currently running instance sharing the new instance's
merged namespace before the new instance is processed; consequently no other
running instance shares the new instance's namespace afterwards, and the
running set keeps pairwise-distinct namespaces. -/
theorem claim_C3_start_namespace_exclusive (s : ServiceState) (instId : Nat)
    (inst0 : PageScrollInstance) (now : ℚ)
    (hnd : s.runningInstances.Nodup)
    (h : s.store instId = some inst0)
    (hrt : ∀ id ∈ s.runningInstances, timerOn s id = true)
    (hdist : (runningNamespaces s).Nodup) :
    (∀ id ∈ s.runningInstances, id ≠ instId →
      namespaceOf s id = (mergeOptions s.config inst0.requestedOptions).nmspace →
      id ∉ (start instId now s).runningInstances ∧
      timerOn (start instId now s) id = false ∧
      (id, false) ∈ ((start instId now s).events.drop s.events.length)) ∧
    (∀ id ∈ (start instId now s).runningInstances, id ≠ instId →
      ¬ namespaceOf (start instId now s) id
          = (mergeOptions s.config inst0.requestedOptions).nmspace) ∧
    (runningNamespaces (start instId now s)).Nodup := by
  rw [start_eq instId now s inst0 h]
  set inst1 : PageScrollInstance :=
    { inst0 with pageScrollOptions := mergeOptions s.config inst0.requestedOptions } with hinst1
  set s1 : ServiceState := { s with store := (storeSet s.store instId inst1) } with hs1
  set ns2 := (mergeOptions s.config inst0.requestedOptions).nmspace with hns2
  have hs1nd : s1.runningInstances.Nodup := hnd
  have hs1store : s1.store instId = some inst1 := by simp [hs1, storeSet]
  have hns1 : ∀ k, k ≠ instId → s1.store k = s.store k := by
    intro k hk
    simp [hs1, storeSet, hk]
  obtain ⟨hstoreO, hnsSelf, rest, hevents, hrestid⟩ :=
    startAfterStop_preserves instId now (stopAll ns2 s1).1
  have hs2run := stopAll_runningInstances ns2 s1 hs1nd
  have hs2events := stopAll_events ns2 s1 hs1nd
  have hs2nsOf : ∀ k, namespaceOf (stopAll ns2 s1).1 k = namespaceOf s1 k :=
    namespaceOf_stopAll ns2 s1 hs1nd
  have hrmself : runMatches s1 ns2 instId = true := by
    unfold runMatches
    rw [hs1store, hinst1, hns2]
    simp
  have hnotrun : instId ∉ (stopAll ns2 s1).1.runningInstances := by
    rw [hs2run]
    intro hmem
    have hb := (List.mem_filter.mp hmem).2
    rw [hrmself] at hb
    cases hb
  have hmatchOf : ∀ id, id ≠ instId → namespaceOf s id = ns2 →
      runMatches s1 ns2 id = true := by
    intro id hne hnsid
    unfold runMatches
    rw [hns1 id hne]
    unfold namespaceOf at hnsid
    cases hsi : s.store id with
    | none =>
      rw [hsi] at hnsid
      simp only [Option.none_bind] at hnsid
      rw [← hnsid]
      simp [nsFalsy]
    | some i =>
      rw [hsi] at hnsid
      simp only [Option.some_bind] at hnsid
      simp [hnsid]
  have hsurvivor : ∀ id ∈ (stopAll ns2 s1).1.runningInstances,
      id ≠ instId → ¬ namespaceOf s id = ns2 := by
    intro id hid hne hnsid
    rw [hs2run] at hid
    have hb := (List.mem_filter.mp hid).2
    rw [hmatchOf id hne hnsid] at hb
    cases hb
  refine ⟨?_, ?_, ?_⟩
  · intro id hid hne hnsid
    have hm := hmatchOf id hne hnsid
    have hmemf : id ∈ s1.runningInstances.filter (runMatches s1 ns2) :=
      List.mem_filter.mpr ⟨hid, hm⟩
    refine ⟨?_, ?_, ?_⟩
    · intro hidafter
      rcases startAfterStop_runningInstances_cases instId now (stopAll ns2 s1).1 with hc | hc
      · rw [hc, hs2run] at hidafter
        have hb := (List.mem_filter.mp hidafter).2
        rw [hm] at hb
        cases hb
      · rw [hc] at hidafter
        rcases List.mem_append.mp hidafter with h1 | h1
        · rw [hs2run] at h1
          have hb := (List.mem_filter.mp h1).2
          rw [hm] at hb
          cases hb
        · exact hne (by simpa using h1)
    · unfold timerOn
      rw [hstoreO id hne, stopAll_store ns2 s1 hs1nd id, if_pos hmemf, hns1 id hne]
      cases hsi : s.store id <;> simp [clearRun]
    · rw [hevents, hs2events]
      have hsevents : s1.events = s.events := rfl
      rw [hsevents, List.append_assoc, List.drop_left]
      apply List.mem_append.mpr
      left
      unfold stopAllResultEvents
      apply List.mem_map.mpr
      refine ⟨id, List.mem_filter.mpr ⟨hid, ?_⟩, rfl⟩
      rw [hm]
      have hton : timerOn s1 id = timerOn s id := by
        unfold timerOn
        rw [hns1 id hne]
      rw [hton, hrt id hid]
      rfl
  · intro id hid hne hnsid
    have hid2 : id ∈ (stopAll ns2 s1).1.runningInstances := by
      rcases startAfterStop_runningInstances_cases instId now (stopAll ns2 s1).1 with hc | hc
      · rw [hc] at hid
        exact hid
      · rw [hc] at hid
        rcases List.mem_append.mp hid with h1 | h1
        · exact h1
        · exact absurd (by simpa using h1) hne
    have hns3 : namespaceOf (startAfterStop instId now (stopAll ns2 s1).1) id
        = namespaceOf s id := by
      unfold namespaceOf
      rw [hstoreO id hne, stopAll_store ns2 s1 hs1nd id]
      by_cases hmem : id ∈ s1.runningInstances.filter (runMatches s1 ns2)
      · rw [if_pos hmem, hns1 id hne]
        cases hsi : s.store id <;> simp [clearRun]
      · rw [if_neg hmem, hns1 id hne]
    rw [hns3] at hnsid
    exact hsurvivor id hid2 hne hnsid
  · have hnseq : ∀ id ∈ (stopAll ns2 s1).1.runningInstances,
        namespaceOf (startAfterStop instId now (stopAll ns2 s1).1) id
          = namespaceOf s id := by
      intro id hid
      have hne : id ≠ instId := fun hx => hnotrun (hx ▸ hid)
      unfold namespaceOf
      rw [hstoreO id hne, stopAll_store ns2 s1 hs1nd id]
      by_cases hmem : id ∈ s1.runningInstances.filter (runMatches s1 ns2)
      · rw [if_pos hmem, hns1 id hne]
        cases hsi : s.store id <;> simp [clearRun]
      · rw [if_neg hmem, hns1 id hne]
    have hsubnd : ((stopAll ns2 s1).1.runningInstances.map (namespaceOf s)).Nodup := by
      have hsub : (stopAll ns2 s1).1.runningInstances.Sublist s.runningInstances := by
        rw [hs2run]
        exact List.filter_sublist _
      unfold runningNamespaces at hdist
      exact (hsub.map (namespaceOf s)).nodup hdist
    unfold runningNamespaces
    rcases startAfterStop_runningInstances_cases instId now (stopAll ns2 s1).1 with hc | hc
    · rw [hc, List.map_congr_left hnseq]
      exact hsubnd
    · rw [hc, List.map_append, List.map_congr_left hnseq]
      have hnsinst : namespaceOf (startAfterStop instId now (stopAll ns2 s1).1) instId
          = ns2 := by
        rw [hnsSelf, hs2nsOf instId]
        unfold namespaceOf
        rw [hs1store, hinst1]
        simp [hns2]
      rw [List.nodup_append]
      refine ⟨hsubnd, by simp, ?_⟩
      intro x hx hxmem
      simp only [List.map_cons, List.map_nil, List.mem_singleton] at hxmem
      rcases List.mem_map.mp hx with ⟨id, hidmem, hidns⟩
      have hne : id ≠ instId := fun hxx => hnotrun (hxx ▸ hidmem)
      apply hsurvivor id hidmem hne
      rw [hidns, hxmem, hnsinst]

end NgxPageScroll

namespace NgxPageScroll

theorem claim_C3_witness :
    (5 ∉ (start 1 0 restartState).runningInstances ∧
      timerOn (start 1 0 restartState) 5 = false ∧
      (5, false) ∈ ((start 1 0 restartState).events.drop restartState.events.length)) ∧
    (runningNamespaces (start 1 0 restartState)).Nodup := by
  have hmain := claim_C3_start_namespace_exclusive restartState 1 sampleInstance 0
    (by decide) rfl (by decide) (by decide)
  exact ⟨hmain.1 5 (by decide) (by decide) rfl, hmain.2.2⟩

end NgxPageScroll

namespace NgxPageScroll

/-! Event-count bookkeeping: each operation other than a `start` of the same
instance preserves the sum of completion events fired for an instance and its
active-timer bit, because an event is fired for it exactly when its timer is
cleared. -/

theorem stopInternal_sum (b : Bool) (id instId : Nat) (s : ServiceState) :
    countEvents (stopInternal b id s).1 instId + timerBit (stopInternal b id s).1 instId
      = countEvents s instId + timerBit s instId := by
  have hev := stopInternal_events b id s
  have hst := stopInternal_store b id s instId
  unfold countEvents timerBit
  rw [hev, hst, List.filter_append, List.length_append]
  by_cases hid : instId = id
  · subst hid
    rw [if_pos rfl]
    cases hto : timerOn s instId
    · unfold timerOn at hto
      cases hsi : s.store instId with
      | none => simp [hsi, hto]
      | some i =>
        rw [hsi] at hto
        simp only at hto
        simp [hsi, hto, clearRun]
    · unfold timerOn at hto
      cases hsi : s.store instId with
      | none => rw [hsi] at hto; cases hto
      | some i =>
        rw [hsi] at hto
        simp only at hto
        simp [hsi, hto, clearRun]
  · rw [if_neg hid]
    cases hto : timerOn s id
    · simp [hto]
    · simp [hto, Ne.symm hid]

theorem stopAllFrom_sum (ns : Option String) (i : Nat) (st : Bool) (s : ServiceState)
    (instId : Nat) :
    countEvents (stopAllFrom ns i st s).1 instId + timerBit (stopAllFrom ns i st s).1 instId
      = countEvents s instId + timerBit s instId := by
  induction i, st, s using stopAllFrom.induct ns with
  | case1 i st s h instId2 hmatch ih =>
    have hid2 : instId2 = s.runningInstances[i] := rfl
    rw [hid2] at hmatch ih
    have hunf : stopAllFrom ns i st s
        = stopAllFrom ns i true (stopInternal true s.runningInstances[i] s).1 := by
      rw [stopAllFrom.eq_def]
      simp only [List.get_eq_getElem, dif_pos h, if_pos hmatch]
    rw [hunf, ih, stopInternal_sum]
  | case2 i st s h instId2 hnomatch ih =>
    have hid2 : instId2 = s.runningInstances[i] := rfl
    rw [hid2] at hnomatch
    have hunf : stopAllFrom ns i st s = stopAllFrom ns (i + 1) st s := by
      rw [stopAllFrom.eq_def]
      simp only [List.get_eq_getElem, dif_pos h, if_neg hnomatch]
    rw [hunf, ih]
  | case3 i st s h =>
    have hunf : stopAllFrom ns i st s = (s, st) := by
      rw [stopAllFrom.eq_def]
      simp only [dif_neg h]
    rw [hunf]

theorem stopAll_sum (ns : Option String) (s : ServiceState) (instId : Nat) :
    countEvents (stopAll ns s).1 instId + timerBit (stopAll ns s).1 instId
      = countEvents s instId + timerBit s instId := by
  unfold stopAll
  by_cases hl : 0 < s.runningInstances.length
  · rw [if_pos hl]
    exact stopAllFrom_sum ns 0 false s instId
  · rw [if_neg hl]

theorem tick_sum (id : Nat) (t : ℚ) (s : ServiceState) (instId : Nat) :
    countEvents (tick id t s) instId + timerBit (tick id t s) instId
      = countEvents s instId + timerBit s instId := by
  unfold tick
  cases h : s.store id with
  | none => rfl
  | some inst =>
    by_cases hsn : (tickReachedEnd inst t
        || !(applyScrollPosition s.dom (inst.pageScrollOptions.scrollViews.getD [])
          (tickNewPosition inst t)).2) = true
    · simp only [hsn, if_true]
      rw [stopInternal_sum]
      rfl
    · simp only [hsn, Bool.false_eq_true, if_false]
      rfl

theorem onInterruptedReport_sum (ev : UIEvent) (id : Nat) (s : ServiceState) (instId : Nat) :
    countEvents (onInterruptedReport ev id s) instId
        + timerBit (onInterruptedReport ev id s) instId
      = countEvents s instId + timerBit s instId := by
  unfold onInterruptedReport
  cases h : s.store id with
  | none => rfl
  | some inst =>
    by_cases hint : (!inst.pageScrollOptions.interruptible) = true
    · simp only [hint, if_true]
    · simp only [hint, Bool.false_eq_true, if_false]
      by_cases hstop : (match ev with
          | UIEvent.keyup keyCode => s.config.interruptKeys.contains keyCode
          | UIEvent.mousedown containedIn =>
            someViewContains inst.pageScrollOptions.scrollViews containedIn
          | UIEvent.otherEvent => true) = true
      · simp only [hstop, if_true]
        exact stopAll_sum _ s instId
      · simp only [hstop, Bool.false_eq_true, if_false]

theorem start_other_sum (id : Nat) (now : ℚ) (s : ServiceState) (instId : Nat)
    (hne : id ≠ instId) :
    countEvents (start id now s) instId + timerBit (start id now s) instId
      = countEvents s instId + timerBit s instId := by
  cases h : s.store id with
  | none =>
    simp only [start, h]
  | some inst0 =>
    rw [start_eq id now s inst0 h]
    set inst1 : PageScrollInstance :=
      { inst0 with pageScrollOptions := mergeOptions s.config inst0.requestedOptions }
      with hinst1
    set s1 : ServiceState := { s with store := (storeSet s.store id inst1) } with hs1
    set ns2 := (mergeOptions s.config inst0.requestedOptions).nmspace with hns2
    obtain ⟨hstoreO, _, rest, hevents, hrestid⟩ :=
      startAfterStop_preserves id now (stopAll ns2 s1).1
    have hcount : countEvents (startAfterStop id now (stopAll ns2 s1).1) instId
        = countEvents (stopAll ns2 s1).1 instId := by
      unfold countEvents
      rw [hevents, List.filter_append, List.length_append]
      have hnil : rest.filter (fun e => e.1 = instId) = [] := by
        rw [List.filter_eq_nil_iff]
        intro e he heq
        exact hne ((hrestid e he).symm.trans (of_decide_eq_true heq))
      rw [hnil]
      simp
    have hbit : timerBit (startAfterStop id now (stopAll ns2 s1).1) instId
        = timerBit (stopAll ns2 s1).1 instId := by
      unfold timerBit
      rw [hstoreO instId (Ne.symm hne)]
    rw [hcount, hbit, stopAll_sum]
    unfold countEvents timerBit
    simp [hs1, storeSet, Ne.symm hne]

theorem applyStep_sum (st : ApiStep) (s : ServiceState) (instId : Nat)
    (hst : ∀ t, st ≠ ApiStep.startStep instId t) :
    countEvents (applyStep st s) instId + timerBit (applyStep st s) instId
      = countEvents s instId + timerBit s instId := by
  cases st with
  | tickStep id t => exact tick_sum id t s instId
  | stopStep id => exact stopInternal_sum true id instId s
  | stopAllStep ns => exact stopAll_sum ns s instId
  | reportStep ev id => exact onInterruptedReport_sum ev id s instId
  | startStep id t =>
    have hne : id ≠ instId := by
      intro hx
      exact hst t (by rw [hx])
    exact start_other_sum id t s instId hne

theorem runSteps_sum (steps : List ApiStep) (s : ServiceState) (instId : Nat)
    (hsteps : ∀ st ∈ steps, ∀ t, st ≠ ApiStep.startStep instId t) :
    countEvents (runSteps steps s) instId + timerBit (runSteps steps s) instId
      = countEvents s instId + timerBit s instId := by
  induction steps generalizing s with
  | nil => rfl
  | cons st rest ih =>
    have h1 := applyStep_sum st s instId (hsteps st (List.mem_cons_self st rest))
    have h2 := ih (applyStep st s) (fun st2 hmem => hsteps st2 (List.mem_cons_of_mem st hmem))
    unfold runSteps
    rw [h2, h1]

end NgxPageScroll

namespace NgxPageScroll

/-- Starting an idle instance with a usable scroll-view list raises the sum
of its completion-event count and its active-timer bit by exactly one: the
attempt either fires its single completion event immediately (`NaN` failure
or short-circuit) or schedules the timer whose clearing will fire it. -/
theorem start_self_sum (s : ServiceState) (instId : Nat) (inst0 : PageScrollInstance)
    (now : ℚ) (vs : List (Option Nat))
    (hnd : s.runningInstances.Nodup)
    (h : s.store instId = some inst0)
    (htimer : inst0.timer = none)
    (hviews : (mergeOptions s.config inst0.requestedOptions).scrollViews = some vs)
    (hvs : ¬ vs.length = 0) :
    countEvents (start instId now s) instId + timerBit (start instId now s) instId
      = countEvents s instId + 1 := by
  rw [start_eq instId now s inst0 h]
  set inst1 : PageScrollInstance :=
    { inst0 with pageScrollOptions := mergeOptions s.config inst0.requestedOptions }
    with hinst1
  set s1 : ServiceState := { s with store := (storeSet s.store instId inst1) } with hs1
  set ns2 := (mergeOptions s.config inst0.requestedOptions).nmspace with hns2
  have hs1nd : s1.runningInstances.Nodup := hnd
  have hs1store : s1.store instId = some inst1 := by simp [hs1, storeSet]
  have hcount2 : countEvents (stopAll ns2 s1).1 instId = countEvents s instId := by
    unfold countEvents
    rw [stopAll_events ns2 s1 hs1nd, List.filter_append, List.length_append]
    have hnil : (stopAllResultEvents s1 ns2 s1.runningInstances).filter
        (fun e => e.1 = instId) = [] := by
      rw [List.filter_eq_nil_iff]
      intro e he heq
      unfold stopAllResultEvents at he
      rcases List.mem_map.mp he with ⟨id2, hid2, hide⟩
      have hp := (List.mem_filter.mp hid2).2
      have hid2eq : id2 = instId := by
        have := of_decide_eq_true heq
        rw [← hide] at this
        exact this
      subst hid2eq
      have hto : timerOn s1 id2 = false := by
        unfold timerOn
        rw [hs1store]
        simp [hinst1, htimer]
      rw [hto, Bool.and_false] at hp
      cases hp
    rw [hnil]
    simp [hs1]
  have hbit2 : timerBit (stopAll ns2 s1).1 instId = 0 := by
    unfold timerBit
    rw [stopAll_store ns2 s1 hs1nd instId]
    by_cases hmem : instId ∈ s1.runningInstances.filter (runMatches s1 ns2)
    · rw [if_pos hmem, hs1store]
      simp [clearRun]
    · rw [if_neg hmem, hs1store]
      simp [hinst1, htimer]
  have hexists : ∃ instS : PageScrollInstance,
      (stopAll ns2 s1).1.store instId = some instS ∧
      instS.pageScrollOptions = mergeOptions s.config inst0.requestedOptions ∧
      instS.timer = none := by
    rw [stopAll_store ns2 s1 hs1nd instId]
    by_cases hmem : instId ∈ s1.runningInstances.filter (runMatches s1 ns2)
    · refine ⟨clearRun inst1, ?_, rfl, rfl⟩
      rw [if_pos hmem, hs1store]
      rfl
    · refine ⟨inst1, ?_, rfl, htimer⟩
      rw [if_neg hmem, hs1store]
  obtain ⟨instS, hS, hSopts, hStimer⟩ := hexists
  have hSviews : instS.pageScrollOptions.scrollViews = some vs := by
    rw [hSopts]
    exact hviews
  cases htl2 : instS.scrollTargetTopLeft with
  | none =>
    have hx := startAfterStop_nan instId now (stopAll ns2 s1).1 instS vs
      (findStartScrollPosition (stopAll ns2 s1).1.dom vs) hS hSviews hvs htl2 rfl
    rw [hx]
    have hc : countEvents { (stopAll ns2 s1).1 with
        store := (storeSet (stopAll ns2 s1).1.store instId { instS with
          startScrollPosition := findStartScrollPosition (stopAll ns2 s1).1.dom vs
          targetScrollPosition := none
          distanceToScroll := none }),
        events := (stopAll ns2 s1).1.events ++ [(instId, false)] } instId
        = countEvents (stopAll ns2 s1).1 instId + 1 := by
      unfold countEvents
      simp [List.filter_append]
    have hb : timerBit { (stopAll ns2 s1).1 with
        store := (storeSet (stopAll ns2 s1).1.store instId { instS with
          startScrollPosition := findStartScrollPosition (stopAll ns2 s1).1.dom vs
          targetScrollPosition := none
          distanceToScroll := none }),
        events := (stopAll ns2 s1).1.events ++ [(instId, false)] } instId = 0 := by
      unfold timerBit
      simp [storeSet, hStimer]
    rw [hc, hb, hcount2]
  | some tl =>
    by_cases hsc : shortcircuitNow instS.pageScrollOptions
        (jsRound ((if instS.pageScrollOptions.isVerticalScrolling then tl.1 else tl.2)
          - instS.currentOffset)
          - findStartScrollPosition (stopAll ns2 s1).1.dom vs) = true
    · have hx := startAfterStop_shortcircuit instId now (stopAll ns2 s1).1 instS vs tl
        (findStartScrollPosition (stopAll ns2 s1).1.dom vs)
        (jsRound ((if instS.pageScrollOptions.isVerticalScrolling then tl.1 else tl.2)
          - instS.currentOffset))
        (jsRound ((if instS.pageScrollOptions.isVerticalScrolling then tl.1 else tl.2)
          - instS.currentOffset)
          - findStartScrollPosition (stopAll ns2 s1).1.dom vs)
        hS hSviews hvs htl2 rfl rfl rfl hsc
      rw [hx]
      have hc : ∀ st2 : Nat → Option PageScrollInstance, ∀ dm : Dom,
          countEvents { (stopAll ns2 s1).1 with
            store := st2, dom := dm,
            events := (stopAll ns2 s1).1.events ++ [(instId, true)] } instId
          = countEvents (stopAll ns2 s1).1 instId + 1 := by
        intro st2 dm
        unfold countEvents
        simp [List.filter_append]
      rw [hc]
      have hb : timerBit { (stopAll ns2 s1).1 with
          store := (storeSet (stopAll ns2 s1).1.store instId { instS with
            startScrollPosition := findStartScrollPosition (stopAll ns2 s1).1.dom vs
            targetScrollPosition := some (jsRound
              ((if instS.pageScrollOptions.isVerticalScrolling then tl.1 else tl.2)
                - instS.currentOffset))
            distanceToScroll := some (jsRound
              ((if instS.pageScrollOptions.isVerticalScrolling then tl.1 else tl.2)
                - instS.currentOffset)
              - findStartScrollPosition (stopAll ns2 s1).1.dom vs)
            executionDuration := computeExecutionDuration instS.pageScrollOptions.duration
              instS.pageScrollOptions.speed
              (jsRound ((if instS.pageScrollOptions.isVerticalScrolling then tl.1 else tl.2)
                - instS.currentOffset)
                - findStartScrollPosition (stopAll ns2 s1).1.dom vs) }),
          dom := (applyScrollPosition (stopAll ns2 s1).1.dom vs
            (jsRound ((if instS.pageScrollOptions.isVerticalScrolling then tl.1 else tl.2)
              - instS.currentOffset))).1,
          events := (stopAll ns2 s1).1.events ++ [(instId, true)] } instId = 0 := by
        unfold timerBit
        simp [storeSet, hStimer]
      rw [hb, hcount2]
    · have hx := startAfterStop_schedule instId now (stopAll ns2 s1).1 instS vs tl
        (findStartScrollPosition (stopAll ns2 s1).1.dom vs)
        (jsRound ((if instS.pageScrollOptions.isVerticalScrolling then tl.1 else tl.2)
          - instS.currentOffset))
        (jsRound ((if instS.pageScrollOptions.isVerticalScrolling then tl.1 else tl.2)
          - instS.currentOffset)
          - findStartScrollPosition (stopAll ns2 s1).1.dom vs)
        hS hSviews hvs htl2 rfl rfl rfl (Bool.eq_false_iff.mpr hsc)
      rw [hx]
      unfold countEvents timerBit
      simp only [List.filter_append]
      simp [storeSet]
      unfold countEvents at hcount2
      omega
  -- end cases

end NgxPageScroll

namespace NgxPageScroll

/-- C2, counterexample to the claim as stated, at two explicit inputs.
(i) "Exactly once per start attempt" fails: a `start` whose merged
scroll-view list is empty fires no completion callback at all — neither
during the call (no event is logged) nor ever after (no timer is scheduled
and the instance is not running).  (ii) "`false` when the animation was
interrupted or aborted before reaching the target" fails: a mid-animation
tick over a DOM where every write fails aborts the animation early — the
scroll view still holds its old position `0`, far from the target `500` —
yet fires the callback with `true`, not `false`. -/
theorem claim_C2_counterexample :
    ((start 1 0 emptyViewsState).events = [] ∧
      ((start 1 0 emptyViewsState).store 1).map (fun i => i.timer) = some none ∧
      (start 1 0 emptyViewsState).runningInstances = []) ∧
    ((tick 1 50 failRunningState).events = [(1, true)] ∧
      ((tick 1 50 failRunningState).dom 1).map (fun v => v.scrollPos) = some (some 0) ∧
      runningInstance.targetScrollPosition = some 500 ∧
      (tick 1 50 failRunningState).runningInstances = []) :=
  ⟨⟨rfl, rfl, rfl⟩, rfl, rfl, rfl, rfl⟩

/-- C2 (amended): for every `start` attempt whose merged scroll-view list is
present and non-empty, the completion callback fires exactly once for that
attempt — after the call and any sequence of further operations (ticks,
stops, `stopAll`s, interrupt reports and `start`s of other instances), the
number of completion events fired for the instance plus its active-timer bit
exceeds the count before the call by exactly one; a `start` whose merged
scroll-view list is null or empty fires no callback at all.  The callback's
boolean does not report whether the target was reached; it reports whether
the stop was an interruption: an unresolvable target fires `false`
immediately, the immediate short-circuit jump fires `true`, a stop coming
from the timer tick fires `true` (natural completion and the mid-animation
write-failure abort alike, the latter never reaching the target), and
`stop`, `stopAll` and interrupt-triggered stops fire `false`. -/
theorem claim_C2_completion_exactly_once (s : ServiceState) (instId : Nat)
    (inst0 : PageScrollInstance) (now : ℚ) (vs : List (Option Nat))
    (steps : List ApiStep)
    (hnd : s.runningInstances.Nodup)
    (h : s.store instId = some inst0)
    (htimer : inst0.timer = none)
    (hviews : (mergeOptions s.config inst0.requestedOptions).scrollViews = some vs)
    (hvs : ¬ vs.length = 0)
    (hsteps : ∀ st ∈ steps, ∀ t, st ≠ ApiStep.startStep instId t) :
    (countEvents (runSteps steps (start instId now s)) instId
      + timerBit (runSteps steps (start instId now s)) instId
      = countEvents s instId + 1) ∧
    (inst0.scrollTargetTopLeft = none →
      ((start instId now s).events).getLast? = some (instId, false)) ∧
    (∀ (tl : ℚ × ℚ) (startPos target d : ℚ),
      inst0.scrollTargetTopLeft = some tl →
      startPos = findStartScrollPosition s.dom vs →
      target = jsRound ((if (mergeOptions s.config inst0.requestedOptions).isVerticalScrolling
        then tl.1 else tl.2) - inst0.currentOffset) →
      d = target - startPos →
      shortcircuitNow (mergeOptions s.config inst0.requestedOptions) d = true →
      ((start instId now s).events).getLast? = some (instId, true)) ∧
    (∀ (s' : ServiceState) (t : ℚ),
      (tick instId t s').events.drop s'.events.length = [] ∨
      (tick instId t s').events.drop s'.events.length = [(instId, true)]) ∧
    (∀ s' : ServiceState,
      (stop instId s').1.events.drop s'.events.length = [] ∨
      (stop instId s').1.events.drop s'.events.length = [(instId, false)]) ∧
    (∀ (s' : ServiceState) (ns : Option String), s'.runningInstances.Nodup →
      ∀ e ∈ (stopAll ns s').1.events.drop s'.events.length, e.2 = false) ∧
    (∀ (s' : ServiceState) (ev : UIEvent) (rid : Nat), s'.runningInstances.Nodup →
      ∀ e ∈ (onInterruptedReport ev rid s').events.drop s'.events.length, e.2 = false) := by
  refine ⟨?_, ?_, ?_, ?_, ?_, ?_, ?_⟩
  · rw [runSteps_sum steps (start instId now s) instId hsteps]
    exact start_self_sum s instId inst0 now vs hnd h htimer hviews hvs
  · intro htl
    rw [start_eq instId now s inst0 h]
    set inst1 : PageScrollInstance :=
      { inst0 with pageScrollOptions := mergeOptions s.config inst0.requestedOptions }
      with hinst1
    set s1 : ServiceState := { s with store := (storeSet s.store instId inst1) } with hs1
    set ns2 := (mergeOptions s.config inst0.requestedOptions).nmspace with hns2
    have hs1nd : s1.runningInstances.Nodup := hnd
    have hs1store : s1.store instId = some inst1 := by simp [hs1, storeSet]
    have hexists : ∃ instS : PageScrollInstance,
        (stopAll ns2 s1).1.store instId = some instS ∧
        instS.pageScrollOptions = mergeOptions s.config inst0.requestedOptions ∧
        instS.scrollTargetTopLeft = inst0.scrollTargetTopLeft := by
      rw [stopAll_store ns2 s1 hs1nd instId]
      by_cases hmem : instId ∈ s1.runningInstances.filter (runMatches s1 ns2)
      · refine ⟨clearRun inst1, ?_, rfl, rfl⟩
        rw [if_pos hmem, hs1store]
        rfl
      · refine ⟨inst1, ?_, rfl, rfl⟩
        rw [if_neg hmem, hs1store]
    obtain ⟨instS, hS, hSopts, hStl⟩ := hexists
    have hSviews : instS.pageScrollOptions.scrollViews = some vs := by
      rw [hSopts]
      exact hviews
    have hx := startAfterStop_nan instId now (stopAll ns2 s1).1 instS vs
      (findStartScrollPosition (stopAll ns2 s1).1.dom vs) hS hSviews hvs
      (by rw [hStl]; exact htl) rfl
    rw [hx]
    simp
  · intro tl startPos target d htl hsp htarget hd hshort
    rw [start_eq instId now s inst0 h]
    set inst1 : PageScrollInstance :=
      { inst0 with pageScrollOptions := mergeOptions s.config inst0.requestedOptions }
      with hinst1
    set s1 : ServiceState := { s with store := (storeSet s.store instId inst1) } with hs1
    set ns2 := (mergeOptions s.config inst0.requestedOptions).nmspace with hns2
    have hs1nd : s1.runningInstances.Nodup := hnd
    have hs1store : s1.store instId = some inst1 := by simp [hs1, storeSet]
    have hexists : ∃ instS : PageScrollInstance,
        (stopAll ns2 s1).1.store instId = some instS ∧
        instS.pageScrollOptions = mergeOptions s.config inst0.requestedOptions ∧
        instS.scrollTargetTopLeft = inst0.scrollTargetTopLeft ∧
        instS.currentOffset = inst0.currentOffset := by
      rw [stopAll_store ns2 s1 hs1nd instId]
      by_cases hmem : instId ∈ s1.runningInstances.filter (runMatches s1 ns2)
      · refine ⟨clearRun inst1, ?_, rfl, rfl, rfl⟩
        rw [if_pos hmem, hs1store]
        rfl
      · refine ⟨inst1, ?_, rfl, rfl, rfl⟩
        rw [if_neg hmem, hs1store]
    obtain ⟨instS, hS, hSopts, hStl, hSoff⟩ := hexists
    have hs2dom : (stopAll ns2 s1).1.dom = s.dom := stopAll_dom ns2 s1 hs1nd
    have hSviews : instS.pageScrollOptions.scrollViews = some vs := by
      rw [hSopts]
      exact hviews
    have hx := startAfterStop_shortcircuit instId now (stopAll ns2 s1).1 instS vs tl
      startPos target d hS hSviews hvs
      (by rw [hStl]; exact htl)
      (by rw [hs2dom]; exact hsp)
      (by rw [hSopts, hSoff]; exact htarget)
      hd
      (by rw [hSopts]; exact hshort)
    rw [hx]
    simp
  · intro s' t
    unfold tick
    cases hst : s'.store instId with
    | none =>
      left
      simp [List.drop_length]
    | some inst =>
      by_cases hsn : (tickReachedEnd inst t
          || !(applyScrollPosition s'.dom (inst.pageScrollOptions.scrollViews.getD [])
            (tickNewPosition inst t)).2) = true
      · simp only [hsn, if_true]
        rw [stopInternal_events]
        cases hto : timerOn { s' with dom := (applyScrollPosition s'.dom
            (inst.pageScrollOptions.scrollViews.getD []) (tickNewPosition inst t)).1 } instId
        · left
          simp [hto]
        · right
          simp [hto, List.drop_left]
      · simp only [hsn, Bool.false_eq_true, if_false]
        left
        simp [List.drop_length]
  · intro s'
    unfold stop
    rw [stopInternal_events]
    cases hto : timerOn s' instId
    · left
      simp [hto]
    · right
      simp [hto, List.drop_left]
  · intro s' ns hnd' e he
    rw [stopAll_events ns s' hnd', List.drop_left] at he
    unfold stopAllResultEvents at he
    rcases List.mem_map.mp he with ⟨id2, _, hide⟩
    rw [← hide]
  · intro s' ev rid hnd' e
    unfold onInterruptedReport
    cases hst : s'.store rid with
    | none =>
      intro he
      simp [List.drop_length] at he
    | some inst =>
      by_cases hint : (!inst.pageScrollOptions.interruptible) = true
      · simp only [hint, if_true]
        intro he
        simp [List.drop_length] at he
      · simp only [hint, Bool.false_eq_true, if_false]
        by_cases hstop2 : (match ev with
            | UIEvent.keyup keyCode => s'.config.interruptKeys.contains keyCode
            | UIEvent.mousedown containedIn =>
              someViewContains inst.pageScrollOptions.scrollViews containedIn
            | UIEvent.otherEvent => true) = true
        · simp only [hstop2, if_true]
          intro he
          rw [stopAll_events _ s' hnd', List.drop_left] at he
          unfold stopAllResultEvents at he
          rcases List.mem_map.mp he with ⟨id2, _, hide⟩
          rw [← hide]
        · simp only [hstop2, Bool.false_eq_true, if_false]
          intro he
          simp [List.drop_length] at he

theorem claim_C2_witness :
    (countEvents (runSteps [ApiStep.tickStep 1 200] (start 1 0 sampleState)) 1
      + timerBit (runSteps [ApiStep.tickStep 1 200] (start 1 0 sampleState)) 1
      = countEvents sampleState 1 + 1) ∧
    ((tick 1 50 failRunningState).events.drop failRunningState.events.length = [] ∨
      (tick 1 50 failRunningState).events.drop failRunningState.events.length = [(1, true)]) ∧
    ((stop 1 runningState).1.events.drop runningState.events.length = [] ∨
      (stop 1 runningState).1.events.drop runningState.events.length = [(1, false)]) := by
  have hmain := claim_C2_completion_exactly_once sampleState 1 sampleInstance 0 [some 1]
    [ApiStep.tickStep 1 200] (by decide) rfl rfl rfl (by decide)
    (by
      intro st hst t
      simp only [List.mem_singleton] at hst
      subst hst
      intro hcon
      cases hcon)
  exact ⟨hmain.1, hmain.2.2.2.1 failRunningState 50, hmain.2.2.2.2.1 runningState⟩

end NgxPageScroll
